import Mathlib

/-!
Shallow embedding of `core/src/apps/wallet/sign_tx/signing.py` (the two-phase
Bitcoin transaction-signing protocol controller of the Trezor firmware) and
proofs about it.

Modelling conventions:
* The streaming hash collaborator (`trezor.utils.HashWriter` over sha256,
  `writers.get_tx_hash`) is modelled with byte streams: a hasher state is the
  list of bytes written to it, and sha256 is modelled as an ideal (injective)
  function on streams.  The byte-layout writers of
  `apps.wallet.sign_tx.writers` are external serialization collaborators;
  each is modelled as emitting a tagged chunk determined by its arguments,
  standing for the exact byte layout the real writer emits.
* The script builders (`scripts`), address codecs (`addresses` / `base58`),
  user-confirmation helpers (`helpers`), multisig fingerprint (`multisig`)
  and weight calculator (`tx_weight`) are external collaborators of the
  controller; they are modelled from the spec's contracts as symbolic
  constructors, oracles and parameters.  Each such definition carries a note.
* Host round-trips (`helpers.request_tx_input` etc.) are modelled by oracle
  functions in `Host`: each request is answered by the host function for the
  requesting stage, so the host may answer differently on each re-request.
* Python `SigningError(kind, msg)` becomes `RunError.signing kind msg`; an
  uncaught Python runtime exception (e.g. attribute access on `None`) is
  modelled as `RunError.fault`.
* All the amounts and counters are Python arbitrary-precision ints; they are
  modelled as `Nat` (they are never negative in the source) and the fee as
  `Int`, mirroring `total_in - total_out`.
-/

set_option maxHeartbeats 1000000
set_option linter.unusedVariables false

namespace SignTx

/-- Failure kinds of `trezor.messages.FailureType` used by the signing core. -/
inductive FailureType where
  | DataError
  | ProcessError
  | ActionCancelled
  | NotEnoughFunds
deriving DecidableEq

/-- Outcome of a failed run: a raised `SigningError(kind, msg)`, or a modelled
uncaught Python runtime exception (`fault`). -/
inductive RunError where
  | signing (kind : FailureType) (msg : String)
  | fault (msg : String)
deriving DecidableEq

/-- `trezor.messages.InputScriptType` members relevant to `signing.py`. -/
inductive InputScriptType where
  | SPENDADDRESS
  | SPENDMULTISIG
  | EXTERNAL
  | SPENDWITNESS
  | SPENDP2SHWITNESS
deriving DecidableEq

/-- The wire enum value of an input script type. -/
def InputScriptType.code : InputScriptType → Nat
  | .SPENDADDRESS => 0
  | .SPENDMULTISIG => 1
  | .EXTERNAL => 2
  | .SPENDWITNESS => 3
  | .SPENDP2SHWITNESS => 4

/-- `trezor.messages.OutputScriptType` members. -/
inductive OutputScriptType where
  | PAYTOADDRESS
  | PAYTOSCRIPTHASH
  | PAYTOMULTISIG
  | PAYTOOPRETURN
  | PAYTOWITNESS
  | PAYTOP2SHWITNESS
deriving DecidableEq

/-- Script bytes produced by the external builders in
`apps.wallet.sign_tx.scripts`; modelled as symbolic constructors standing for
the exact byte layouts the builders emit. -/
inductive Script where
  | opreturn (data : List Nat)
  | nativeWitness (witprog : List Nat)
  | p2pkh (pubkeyhash : List Nat)
  | p2sh (scripthash : List Nat)
  | multisigOut (pubkeys : List (List Nat)) (m : Nat)
deriving DecidableEq

/-- A scriptPubKey value written into a hashed stream: either derived by
`output_derive_script` or raw bytes supplied by the host (previous-transaction
outputs). -/
inductive ScriptPK where
  | derived (s : Script)
  | raw (b : List Nat)
deriving DecidableEq

/-- A scriptSig value occurring in a hashed stream: raw host bytes (also the
empty scriptSig `bytes()`) or an output script substituted as the legacy
signing placeholder. -/
inductive HScriptSig where
  | raw (b : List Nat)
  | outScript (s : Script)
deriving DecidableEq

/-- `trezor.messages.MultisigRedeemScriptType`, flattened: threshold `m` and
the member public keys. -/
structure MultisigRedeemScriptType where
  m : Nat
  pubkeys : List (List Nat)
deriving DecidableEq

/-- `trezor.messages.TxInputType` fields used by `signing.py`.  `amount = 0`
models both an absent and a zero amount (the source only tests truthiness,
and `write_tx_input_check` writes `amount or 0`). -/
structure TxInputType where
  prev_hash : List Nat
  prev_index : Nat
  address_n : List Nat
  script_type : InputScriptType
  multisig : Option MultisigRedeemScriptType
  amount : Nat
  sequence : Nat
  script_sig : HScriptSig
deriving DecidableEq

/-- An address string as the codec collaborators classify it (modelled from
the spec: `addresses`/`base58` are external codecs): a bech32 address with the
coin's prefix carrying a witness program, a base58-check address carrying its
version byte and payload, or anything else (base58 decoding fails). -/
inductive Address where
  | bech32 (witprog : List Nat)
  | b58 (version : Nat) (payload : List Nat)
  | malformed (b : List Nat)
deriving DecidableEq

/-- `trezor.messages.TxOutputType` fields used by `signing.py`. -/
structure TxOutputType where
  amount : Nat
  address : Address
  address_n : List Nat
  script_type : OutputScriptType
  multisig : Option MultisigRedeemScriptType
  op_return_data : List Nat
deriving DecidableEq

/-- `trezor.messages.TxOutputBinType`: an already-serialized output as the
host streams it for previous transactions. -/
structure TxOutputBinType where
  amount : Nat
  script_pubkey : List Nat
deriving DecidableEq

/-- The `SignTx` message fields the controller reads. -/
structure SignTxMeta where
  version : Nat
  lock_time : Nat
  inputs_count : Nat
  outputs_count : Nat
deriving DecidableEq

/-- A referenced previous transaction as the host streams it: declared meta
plus per-index responses to the input/output requests. -/
structure PrevTx where
  version : Nat
  lock_time : Nat
  inputs_cnt : Nat
  outputs_cnt : Nat
  inputs : Nat → TxInputType
  outputs : Nat → TxOutputBinType

/-- The `coininfo.CoinInfo` fields `signing.py` reads.  `has_bech32` models
`coin.bech32_prefix` being non-None; an `Address.bech32` value models an
address string starting with that prefix. -/
structure CoinInfo where
  sign_hash_double : Bool
  maxfee_kb : Nat
  address_type : Nat
  address_type_p2sh : Nat
  has_bech32 : Bool
deriving DecidableEq

/- ===== Modelled byte-layout writers (collaborator `writers.py`) ===== -/

/-- Length-prefix a variable-length field so that distinct field values give
distinct chunks. -/
def encBytes (b : List Nat) : List Nat := b.length :: b

/-- Encoding of a `Script` value to the bytes the builders emit. -/
def encScript : Script → List Nat
  | .opreturn data => 10 :: encBytes data
  | .nativeWitness wp => 11 :: encBytes wp
  | .p2pkh pkh => 12 :: encBytes pkh
  | .p2sh sh => 13 :: encBytes sh
  | .multisigOut pubkeys m => 14 :: m :: pubkeys.length :: (pubkeys.map encBytes).flatten

/-- Encoding of a hashed-stream scriptPubKey value. -/
def encScriptPK : ScriptPK → List Nat
  | .derived s => 20 :: encScript s
  | .raw b => 21 :: encBytes b

/-- Encoding of a hashed-stream scriptSig value. -/
def encScriptSig : HScriptSig → List Nat
  | .raw b => 22 :: encBytes b
  | .outScript s => 23 :: encScript s

/-- Modelled `writers.write_uint32`. -/
def write_uint32 (n : Nat) : List Nat := [0, n]

/-- Modelled `writers.write_varint`. -/
def write_varint (n : Nat) : List Nat := [1, n]

/-- Modelled `writers.write_tx_input`: reversed prev hash, prev index,
scriptSig with its varint length, sequence. -/
def write_tx_input (txi : TxInputType) : List Nat :=
  2 :: encBytes txi.prev_hash.reverse ++ [txi.prev_index] ++ encScriptSig txi.script_sig ++ [txi.sequence]

/-- Modelled `writers.write_tx_input_check`: prev hash, prev index, script
type, derivation path, sequence and amount of the input descriptor. -/
def write_tx_input_check (txi : TxInputType) : List Nat :=
  3 :: encBytes txi.prev_hash ++ [txi.prev_index, txi.script_type.code] ++ encBytes txi.address_n ++ [txi.sequence, txi.amount]

/-- Modelled `writers.write_tx_output`: amount and scriptPubKey with its
varint length. -/
def write_tx_output (amount : Nat) (spk : ScriptPK) : List Nat :=
  4 :: amount :: encScriptPK spk

/-- Ideal sha256 on a byte stream: modelled as an injective tagging. -/
def sha256Bytes (data : List Nat) : List Nat := 256 :: data

/-- Modelled `writers.get_tx_hash w double reverse`: digest of the hasher
state, double-hashed and/or byte-reversed on demand. -/
def get_tx_hash (w : List Nat) (double : Bool) (reverse : Bool) : List Nat :=
  let d := sha256Bytes w
  let d := if double then sha256Bytes d else d
  if reverse then d.reverse else d

/- ===== Error messages raised by signing.py (and modelled collaborators) ===== -/

def msgTxChanged : String := "Transaction has changed during signing"
def msgWrongInputScriptType : String := "Wrong input script type"
def msgSegwitNoAmount : String := "Segwit input without amount"
def msgOutputCancelled : String := "Output cancelled"
def msgSigningCancelled : String := "Signing cancelled"
def msgLocktimeCancelled : String := "Locktime cancelled"
def msgTotalCancelled : String := "Total cancelled"
def msgNotEnoughFunds : String := "Not enough funds"
def msgNotEnoughOutputs : String := "Not enough outputs in previous transaction."
def msgInvalidPrevHash : String := "Encountered invalid prev_hash"
def msgInvalidAddress : String := "Invalid address"
def msgInvalidAddressType : String := "Invalid address type"
def msgInvalidScriptType : String := "Invalid script type"
def msgUnknownTxType : String := "Unknown transaction type"
def msgPubkeyNotFound : String := "Pubkey not found in multisig script"
def msgForeignCancelled : String := "Cancelled"
def msgMultisigMissing : String := "AttributeError: multisig is None"
def msgSignUnbound : String := "NameError: txi_sign unbound"

/- ===== Signatures, witnesses, serialized items ===== -/

/-- The digest handed to the signature primitive: either a `get_tx_hash`
digest of a legacy signing stream, or a BIP-143 preimage hash (modelled from
the spec: the `segwit_bip143.Bip143` accumulator is an external collaborator;
its preimage digest is determined by the three accumulated streams, the
transaction meta, the input being signed, the signer's pubkey hash and the
hash type). -/
inductive SigDigest where
  | txHash (d : List Nat)
  | bip143 (h_prevouts h_sequence h_outputs : List Nat) (tx : SignTxMeta)
      (txi : TxInputType) (pubkeyhash : List Nat) (hash_type : Nat)
deriving DecidableEq

/-- Modelled `ecdsa_sign(node, digest)`: a DER signature determined by the
signing key (identified by its derivation path) and the digest. -/
inductive Sig where
  | ecdsa (key_path : List Nat) (digest : SigDigest)
deriving DecidableEq

/-- Witness bytes built by `scripts.witness_p2wsh` / `scripts.witness_p2wpkh`. -/
inductive Witness where
  | p2wsh (ms : MultisigRedeemScriptType) (signature : Sig) (signature_index : Nat) (hash_type : Nat)
  | p2wpkh (signature : Sig) (pubkey : List Nat) (hash_type : Nat)
deriving DecidableEq

/-- A scriptSig built by `input_derive_script` (the `scripts.input_script_*`
builders, modelled as symbolic constructors). -/
inductive InScript where
  | p2pkhOrP2sh (pubkey : List Nat) (signature : Option Sig) (hash_type : Nat)
  | p2wpkhInP2sh (pubkeyhash : List Nat)
  | p2wshInP2sh (pubkeys : List (List Nat)) (m : Nat)
  | nativeEmpty
  | multisigIn (ms : MultisigRedeemScriptType) (signature : Option Sig) (signature_index : Nat) (hash_type : Nat)
deriving DecidableEq

/-- What the third (witness) pass of phase 2 streams back to the host at one
input index: a real witness with its signature, the one-byte empty-witness
stub `bytearray(1)`, or nothing. -/
inductive WitnessEmit where
  | wit (index : Nat) (amount : Nat) (w : Witness) (signature : Sig)
  | stub (b : List Nat)
  | noemit
deriving DecidableEq

/- ===== Multisig fingerprint (collaborator `multisig.py`) ===== -/

/-- Modelled from the spec: the multisig consistency tracker of the external
`multisig` module.  The fingerprint commitment over (threshold, pubkeys) is
modelled as the descriptor itself; `mismatch` is latched true once any input
lacks a descriptor or disagrees. -/
structure MultisigFingerprint where
  fingerprint : Option MultisigRedeemScriptType
  mismatch : Bool
deriving DecidableEq

/-- Modelled from the spec: `MultisigFingerprint.add` adopts the first
fingerprint and latches `mismatch` on any disagreement. -/
def MultisigFingerprint.add (fp : MultisigFingerprint) (ms : MultisigRedeemScriptType) :
    MultisigFingerprint :=
  match fp.fingerprint with
  | none => { fp with fingerprint := some ms }
  | some f => if f = ms then fp else { fp with mismatch := true }

/-- Modelled from the spec: `MultisigFingerprint.matches` reports whether the
descriptor agrees with the adopted fingerprint and no mismatch was latched. -/
def MultisigFingerprint.matches (fp : MultisigFingerprint) (ms : MultisigRedeemScriptType) :
    Bool :=
  match fp.fingerprint with
  | none => false
  | some f => !fp.mismatch && f = ms

/-- Modelled `multisig.multisig_get_pubkeys`. -/
def multisig_get_pubkeys (ms : MultisigRedeemScriptType) : List (List Nat) := ms.pubkeys

/-- Modelled from the spec: `multisig.multisig_pubkey_index` locates the
signer's public key among the descriptor's members; its absence is a hard
error (an unauthorized signing key). -/
def multisig_pubkey_index (ms : MultisigRedeemScriptType) (pubkey : List Nat) :
    Except RunError Nat :=
  match ms.pubkeys.findIdx? (fun p => p == pubkey) with
  | some i => .ok i
  | none => .error (.signing .DataError msgPubkeyNotFound)

/- ===== Keychain and signature primitives (collaborators) ===== -/

/-- Modelled `keychain.derive(address_n, curve).public_key()`: deterministic
in the derivation path. -/
def derive_pubkey (address_n : List Nat) : List Nat := 30 :: address_n

/-- Modelled `addresses.ecdsa_hash_pubkey`. -/
def ecdsa_hash_pubkey (pubkey : List Nat) : List Nat := 31 :: pubkey

/-- Modelled `ecdsa_sign(node, digest)`; the node is identified by the
derivation path it came from. -/
def ecdsa_sign (key_path : List Nat) (digest : SigDigest) : Sig := .ecdsa key_path digest

/-- `Bitcoin.get_hash_type`: SIGHASH_ALL. -/
def get_hash_type : Nat := 1

/- ===== Wallet path and per-input checks (signing.py lines 577-611) ===== -/

/-- `txi.address_n[:-_BIP32_WALLET_DEPTH]`: the path truncated by its last two
components. -/
def walletTrunc (address_n : List Nat) : List Nat := address_n.take (address_n.length - 2)

/-- `Bitcoin.input_extract_wallet_path`, as a transition on the wallet-path
field: `none` models Python `None` (latched mismatch), `some []` the initial
unset `[]`. -/
def input_extract_wallet_path (wp : Option (List Nat)) (txi : TxInputType) :
    Option (List Nat) :=
  match wp with
  | none => none
  | some w =>
    let address_n := walletTrunc txi.address_n
    if address_n = [] then none
    else if w = [] then some address_n
    else if w ≠ address_n then none
    else some w

/-- `Bitcoin.input_check_wallet_path`. -/
def input_check_wallet_path (wp : Option (List Nat)) (txi : TxInputType) :
    Except RunError Unit :=
  match wp with
  | none => .ok ()
  | some w =>
    if w = walletTrunc txi.address_n then .ok ()
    else .error (.signing .ProcessError msgTxChanged)

/-- `Bitcoin.input_check_multisig_fingerprint`. -/
def input_check_multisig_fingerprint (fp : MultisigFingerprint) (txi : TxInputType) :
    Except RunError Unit :=
  if fp.mismatch = false then
    match txi.multisig with
    | none => .error (.signing .ProcessError msgTxChanged)
    | some ms =>
      if fp.matches ms then .ok ()
      else .error (.signing .ProcessError msgTxChanged)
  else .ok ()

/-- `input_is_segwit`. -/
def input_is_segwit (txi : TxInputType) : Bool :=
  txi.script_type = .SPENDWITNESS || txi.script_type = .SPENDP2SHWITNESS

/- ===== Output script derivation (signing.py lines 477-522) ===== -/

/-- Modelled from the spec: `helpers.CHANGE_OUTPUT_TO_INPUT_SCRIPT_TYPES`,
the map from change-capable output script types to input script types; its
domain is `helpers.CHANGE_OUTPUT_SCRIPT_TYPES`. -/
def change_output_to_input_script_type : OutputScriptType → Option InputScriptType
  | .PAYTOADDRESS => some .SPENDADDRESS
  | .PAYTOMULTISIG => some .SPENDMULTISIG
  | .PAYTOWITNESS => some .SPENDWITNESS
  | .PAYTOP2SHWITNESS => some .SPENDP2SHWITNESS
  | _ => none

/-- Modelled from the spec: `addresses.get_address` derives the self-owned
address for the given script family from the derived node (identified by its
path) and optional multisig descriptor. -/
def get_address (coin : CoinInfo) (ist : InputScriptType) (address_n : List Nat)
    (ms : Option MultisigRedeemScriptType) : Address :=
  match ist with
  | .SPENDADDRESS | .SPENDMULTISIG =>
    match ms with
    | some msv => .b58 coin.address_type_p2sh (32 :: msv.m :: msv.pubkeys.flatten)
    | none => .b58 coin.address_type (33 :: derive_pubkey address_n)
  | .SPENDWITNESS => .bech32 (34 :: derive_pubkey address_n)
  | .SPENDP2SHWITNESS => .b58 coin.address_type_p2sh (35 :: derive_pubkey address_n)
  | .EXTERNAL => .malformed []

/-- `Bitcoin.get_address_for_change`. -/
def get_address_for_change (coin : CoinInfo) (o : TxOutputType) :
    Except RunError Address :=
  match change_output_to_input_script_type o.script_type with
  | none => .error (.signing .DataError msgInvalidScriptType)
  | some ist => .ok (get_address coin ist o.address_n o.multisig)

/-- `Bitcoin.output_derive_script`: op-return passthrough; change outputs
(non-empty `address_n`) first derive their address; then dispatch on the
address encoding (bech32 with the coin prefix, else base58-check against the
coin's P2PKH / P2SH version bytes, else a data error). -/
def output_derive_script (coin : CoinInfo) (o : TxOutputType) :
    Except RunError Script :=
  if o.script_type = .PAYTOOPRETURN then .ok (.opreturn o.op_return_data)
  else
    match (if o.address_n ≠ [] then get_address_for_change coin o else .ok o.address) with
    | .error e => .error e
    | .ok addr =>
      match addr with
      | .bech32 wp =>
        if coin.has_bech32 then .ok (.nativeWitness wp)
        else .error (.signing .DataError msgInvalidAddress)
      | .b58 v payload =>
        if v = coin.address_type then .ok (.p2pkh payload)
        else if v = coin.address_type_p2sh then .ok (.p2sh payload)
        else .error (.signing .DataError msgInvalidAddressType)
      | .malformed _ => .error (.signing .DataError msgInvalidAddress)

/-- `Bitcoin.output_is_change` as a function of the wallet path and multisig
fingerprint (the only state fields it reads).  `o.address_n[-2]` and
`o.address_n[-1]` are modelled by `getD`; when the wallet path is a non-empty
matching prefix the path has length ≥ 3 and both agree with Python's negative
indexing (for shorter paths Python would raise IndexError, reachable only
with an empty established wallet path). -/
def output_is_change_wf (wallet_path : Option (List Nat)) (fp : MultisigFingerprint)
    (o : TxOutputType) : Bool :=
  if (change_output_to_input_script_type o.script_type).isNone then false
  else if (match o.multisig with | some ms => !(fp.matches ms) | none => false) then false
  else
    match wallet_path with
    | none => false
    | some w =>
      decide (w = walletTrunc o.address_n) &&
      decide (o.address_n.getD (o.address_n.length - 2) 0 ≤ 1) &&
      decide (o.address_n.getD (o.address_n.length - 1) 0 ≤ 1000000)

/- ===== Input script derivation (signing.py lines 539-575) ===== -/

/-- `Bitcoin.input_derive_script`.  For `SPENDMULTISIG` without a descriptor
the source crashes inside `multisig_get_pubkeys` (attribute access on None),
modelled as a fault. -/
def input_derive_script (txi : TxInputType) (pubkey : List Nat) (signature : Option Sig) :
    Except RunError InScript :=
  match txi.script_type with
  | .SPENDADDRESS => .ok (.p2pkhOrP2sh pubkey signature get_hash_type)
  | .SPENDP2SHWITNESS =>
    match txi.multisig with
    | some ms => .ok (.p2wshInP2sh (multisig_get_pubkeys ms) ms.m)
    | none => .ok (.p2wpkhInP2sh (ecdsa_hash_pubkey pubkey))
  | .SPENDWITNESS => .ok .nativeEmpty
  | .SPENDMULTISIG =>
    match txi.multisig with
    | none => .error (.fault msgMultisigMissing)
    | some ms =>
      match multisig_pubkey_index ms pubkey with
      | .error e => .error e
      | .ok idx => .ok (.multisigIn ms signature idx get_hash_type)
  | .EXTERNAL => .error (.signing .ProcessError msgInvalidScriptType)

/- ===== Previous-Transaction Verifier (signing.py lines 402-445) ===== -/

/-- The rolling hash stream `txh` built by `get_prevtx_output_value`: header
(no segwit marker), input count, every input, output count, every output,
lock-time footer.  The source's per-element request/write loop is collapsed
to its resulting stream. -/
def prevtx_txh (ptx : PrevTx) : List Nat :=
  write_uint32 ptx.version
  ++ write_varint ptx.inputs_cnt
  ++ ((List.range ptx.inputs_cnt).map (fun i => write_tx_input (ptx.inputs i))).flatten
  ++ write_varint ptx.outputs_cnt
  ++ ((List.range ptx.outputs_cnt).map
        (fun o => write_tx_output (ptx.outputs o).amount (.raw (ptx.outputs o).script_pubkey))).flatten
  ++ write_uint32 ptx.lock_time

/-- `Bitcoin.get_prevtx_output_value`: re-streams the referenced transaction
from the host (`prevReq` answers the meta/input/output requests for the given
id), re-hashes it, and returns the referenced output's amount only when the
final rolling hash (double-hashed per coin config, byte-reversed) equals the
referenced id.  `amount_out` starts at 0 and is assigned at `o = prev_index`,
which is reached exactly when `prev_index < outputs_cnt`. -/
def get_prevtx_output_value (coin : CoinInfo) (prevReq : List Nat → PrevTx)
    (prev_hash : List Nat) (prev_index : Nat) : Except RunError Nat :=
  let tx := prevReq prev_hash
  if tx.outputs_cnt ≤ prev_index then
    .error (.signing .ProcessError msgNotEnoughOutputs)
  else
    let txh := prevtx_txh tx
    let amount_out := (tx.outputs prev_index).amount
    if get_tx_hash txh coin.sign_hash_double true ≠ prev_hash then
      .error (.signing .ProcessError msgInvalidPrevHash)
    else
      .ok amount_out

/- ===== Host transport and environment ===== -/

/-- The host side of the transport: per-stage answers to the index-addressed
requests (the transport caches nothing, so each stage's re-request may be
answered differently), plus the user-confirmation oracles (modelled from the
spec: the `helpers.confirm_*` round-trips abort the run when declined). -/
structure Host where
  input1 : Nat → TxInputType
  output1 : Nat → TxOutputType
  prev : List Nat → PrevTx
  input2 : Nat → TxInputType
  inputRestream : Nat → Nat → TxInputType
  outputRestream : Nat → Nat → TxOutputType
  output2 : Nat → TxOutputType
  inputWitness : Nat → TxInputType
  confirmOutput : Nat → Bool
  confirmForeign : List Nat → Bool
  confirmFeeOver : Int → Bool
  confirmLocktime : Nat → Bool
  confirmTotal : Int → Int → Bool

/-- Static environment: the coin configuration, the external
`addresses.validate_full_path` predicate and the total weight reported by the
external `tx_weight` calculator (both modelled as parameters: they are pure
collaborators outside `signing.py`). -/
structure Env where
  coin : CoinInfo
  validate_full_path : List Nat → InputScriptType → Bool
  weight_total : Nat

/- ===== Controller state (Bitcoin.initialize) ===== -/

/-- The mutable fields `Bitcoin.initialize` sets up.  `wallet_path = none`
models Python `None` (latched mismatch) and `some []` the initial unset `[]`.
`segwit` models the per-input classification dict; phase 1 assigns every
index in `range inputs_count` before phase 2 reads them (the model's default
`false` stands for a key Python would not find). -/
structure SignState where
  wallet_path : Option (List Nat)
  multisig_fp : MultisigFingerprint
  bip143_in : Nat
  segwit : Nat → Bool
  total_in : Nat
  total_out : Nat
  change_out : Nat
  h_first : List Nat
  h143_prevouts : List Nat
  h143_sequence : List Nat
  h143_outputs : List Nat

/-- The state after `Bitcoin.initialize`. -/
def initial_state : SignState where
  wallet_path := some []
  multisig_fp := ⟨none, false⟩
  bip143_in := 0
  segwit := fun _ => false
  total_in := 0
  total_out := 0
  change_out := 0
  h_first := []
  h143_prevouts := []
  h143_sequence := []
  h143_outputs := []

/-- Modelled `Bip143.add_prevouts`: reversed prev hash and prev index. -/
def hash143_add_prevouts (st : SignState) (txi : TxInputType) : SignState :=
  { st with h143_prevouts :=
      st.h143_prevouts ++ (5 :: encBytes txi.prev_hash.reverse ++ [txi.prev_index]) }

/-- Modelled `Bip143.add_sequence`. -/
def hash143_add_sequence (st : SignState) (txi : TxInputType) : SignState :=
  { st with h143_sequence := st.h143_sequence ++ [6, txi.sequence] }

/-- Modelled `Bip143.add_output`: the serialized output bytes. -/
def hash143_add_output (st : SignState) (amount : Nat) (spk : ScriptPK) : SignState :=
  { st with h143_outputs := st.h143_outputs ++ write_tx_output amount spk }

/-- `Bitcoin.write_sign_tx_header`: version, optional segwit marker/flag,
input count. -/
def write_sign_tx_header (tx : SignTxMeta) (has_segwit : Bool) : List Nat :=
  write_uint32 tx.version
  ++ (if has_segwit then write_varint 0 ++ write_varint 1 else [])
  ++ write_varint tx.inputs_count

/-- `True in self.segwit.values()` over the keys phase 1 populated. -/
def any_segwit (st : SignState) (tx : SignTxMeta) : Bool :=
  (List.range tx.inputs_count).any st.segwit

/- ===== Phase 1 (signing.py lines 108-204) ===== -/

/-- `Bitcoin.phase1_process_segwit_input`: requires a non-zero amount,
classifies the input as segwit, and adds the amount to the segwit pool and
the running input total. -/
def phase1_process_segwit_input (st : SignState) (i : Nat) (txi : TxInputType) :
    Except RunError SignState :=
  if txi.amount = 0 then .error (.signing .DataError msgSegwitNoAmount)
  else
    .ok { st with
      segwit := fun j => if j = i then true else st.segwit j
      bip143_in := st.bip143_in + txi.amount
      total_in := st.total_in + txi.amount }

/-- `Bitcoin.phase1_process_nonsegwit_input`: classifies the input as
non-segwit and resolves its amount through the Previous-Transaction
Verifier. -/
def phase1_process_nonsegwit_input (host : Host) (coin : CoinInfo) (st : SignState)
    (i : Nat) (txi : TxInputType) : Except RunError SignState :=
  match get_prevtx_output_value coin host.prev txi.prev_hash txi.prev_index with
  | .error e => .error e
  | .ok amt =>
    .ok { st with
      segwit := fun j => if j = i then false else st.segwit j
      total_in := st.total_in + amt }

/-- The multisig-fingerprint update of `phase1_process_input` (signing.py
lines 159-162): add the input's descriptor to the tracker, or latch the
mismatch flag when the input has none. -/
def phase1_fp_step (fp : MultisigFingerprint) (txi : TxInputType) : MultisigFingerprint :=
  match txi.multisig with
  | some ms => fp.add ms
  | none => { fp with mismatch := true }

/-- `Bitcoin.phase1_process_input`: wallet-path folding, `h_first` and
BIP-143 accumulation, optional foreign-address confirmation, multisig
fingerprint update, then dispatch on the script family. -/
def phase1_process_input (env : Env) (host : Host) (st : SignState) (i : Nat)
    (txi : TxInputType) : Except RunError SignState :=
  let st1 := { st with wallet_path := input_extract_wallet_path st.wallet_path txi }
  let st2 := { st1 with h_first := st1.h_first ++ write_tx_input_check txi }
  let st3 := hash143_add_sequence (hash143_add_prevouts st2 txi) txi
  if !env.validate_full_path txi.address_n txi.script_type
      && !host.confirmForeign txi.address_n then
    .error (.signing .ActionCancelled msgForeignCancelled)
  else
    let st4 := { st3 with multisig_fp := phase1_fp_step st3.multisig_fp txi }
    match txi.script_type with
    | .SPENDWITNESS => phase1_process_segwit_input st4 i txi
    | .SPENDP2SHWITNESS => phase1_process_segwit_input st4 i txi
    | .SPENDADDRESS => phase1_process_nonsegwit_input host env.coin st4 i txi
    | .SPENDMULTISIG => phase1_process_nonsegwit_input host env.coin st4 i txi
    | .EXTERNAL => .error (.signing .DataError msgWrongInputScriptType)

/-- The phase-1 output loop state: the controller state plus the trace of
output indices for which an explicit `confirm_output` round-trip was made. -/
structure OutLoopAcc where
  st : SignState
  asked : List Nat

/-- The unconditional writes at the end of `phase1_confirm_output` (signing.py
lines 199-201): fold the binary output into `h_first` and the BIP-143 output
stream and accumulate the running output total. -/
def outWrites (st : SignState) (txo : TxOutputType) (spk : Script) : SignState :=
  { st with
    h_first := st.h_first ++ write_tx_output txo.amount (.derived spk)
    h143_outputs := st.h143_outputs ++ write_tx_output txo.amount (.derived spk)
    total_out := st.total_out + txo.amount }

/-- `Bitcoin.phase1_confirm_output`: derive the output's script, treat it as
the unconfirmed change output when no change was recorded yet and the change
predicate holds, otherwise require explicit confirmation; then fold the
binary output into `h_first` and the BIP-143 output stream and accumulate the
total. -/
def phase1_confirm_output (env : Env) (host : Host) (acc : OutLoopAcc) (i : Nat)
    (txo : TxOutputType) : Except RunError OutLoopAcc :=
  match output_derive_script env.coin txo with
  | .error e => .error e
  | .ok spk =>
    let dec : Except RunError (SignState × List Nat) :=
      if acc.st.change_out = 0
          && output_is_change_wf acc.st.wallet_path acc.st.multisig_fp txo then
        .ok ({ acc.st with change_out := txo.amount }, acc.asked)
      else if host.confirmOutput i then .ok (acc.st, acc.asked ++ [i])
      else .error (.signing .ActionCancelled msgOutputCancelled)
    match dec with
    | .error e => .error e
    | .ok (st, asked) => .ok ⟨outWrites st txo spk, asked⟩

/-- The phase-1 input loop over the given indices. -/
def phase1_inputs_loop (env : Env) (host : Host) :
    List Nat → SignState → Except RunError SignState
  | [], st => .ok st
  | i :: is, st =>
    match phase1_process_input env host st i (host.input1 i) with
    | .error e => .error e
    | .ok st' => phase1_inputs_loop env host is st'

/-- The phase-1 output loop over the given indices. -/
def phase1_outputs_loop (env : Env) (host : Host) :
    List Nat → OutLoopAcc → Except RunError OutLoopAcc
  | [], acc => .ok acc
  | i :: is, acc =>
    match phase1_confirm_output env host acc i (host.output1 i) with
    | .error e => .error e
    | .ok acc' => phase1_outputs_loop env host is acc'

/-- `Bitcoin.phase1`: both loops, then the fee, fee-threshold, lock-time and
total confirmations.  The source's float expression
`fee > (maxfee_kb / 1000) * (weight / 4)` is modelled as the exact rational
comparison `fee * 4000 > maxfee_kb * weight`. -/
def phase1 (env : Env) (host : Host) (tx : SignTxMeta) : Except RunError OutLoopAcc :=
  match phase1_inputs_loop env host (List.range tx.inputs_count) initial_state with
  | .error e => .error e
  | .ok st =>
    match phase1_outputs_loop env host (List.range tx.outputs_count) ⟨st, []⟩ with
    | .error e => .error e
    | .ok acc =>
      let fee : Int := (acc.st.total_in : Int) - (acc.st.total_out : Int)
      if fee < 0 then .error (.signing .NotEnoughFunds msgNotEnoughFunds)
      else if fee * 4000 > ((env.coin.maxfee_kb * env.weight_total : Nat) : Int)
          && !host.confirmFeeOver fee then
        .error (.signing .ActionCancelled msgSigningCancelled)
      else if 0 < tx.lock_time && !host.confirmLocktime tx.lock_time then
        .error (.signing .ActionCancelled msgLocktimeCancelled)
      else if !host.confirmTotal ((acc.st.total_in : Int) - (acc.st.change_out : Int)) fee then
        .error (.signing .ActionCancelled msgTotalCancelled)
      else .ok acc

/- ===== Phase 2 (signing.py lines 206-400) ===== -/

/-- One item the controller streams back to the host in phase 2 (serialized
transaction bytes); modelled symbolically. -/
inductive SerItem where
  | header (has_segwit : Bool) (version : Nat) (inputs_count : Nat)
  | txin (prev_hash : List Nat) (prev_index : Nat) (script_sig : InScript) (sequence : Nat)
  | outCount (n : Nat)
  | txout (amount : Nat) (spk : Script)
deriving DecidableEq

/-- `Bitcoin.phase2_serialize_segwit_input`: re-request the input, assert it
is still segwit, check the wallet path, derive the scriptSig placeholder and
serialize (prepending the segwit header for index 0). -/
def phase2_serialize_segwit_input (env : Env) (host : Host) (tx : SignTxMeta)
    (st : SignState) (i_sign : Nat) : Except RunError (List SerItem) :=
  let txi := host.input2 i_sign
  if !input_is_segwit txi then .error (.signing .ProcessError msgTxChanged)
  else
    match input_check_wallet_path st.wallet_path txi with
    | .error e => .error e
    | .ok _ =>
      let pub := derive_pubkey txi.address_n
      match input_derive_script txi pub none with
      | .error e => .error e
      | .ok iscript =>
        .ok ((if i_sign = 0 then [SerItem.header true tx.version tx.inputs_count] else [])
             ++ [SerItem.txin txi.prev_hash txi.prev_index iscript txi.sequence])

/-- `Bitcoin.phase2_sign_segwit_input`: re-request the input, check wallet
path and multisig fingerprint, assert it is still segwit and that its amount
does not exceed the remaining segwit pool, decrement the pool, compute the
BIP-143 preimage digest, sign it and build the witness.  Returns the witness,
the signature, the input's amount and the updated state. -/
def phase2_sign_segwit_input (env : Env) (host : Host) (tx : SignTxMeta)
    (st : SignState) (i : Nat) : Except RunError (Witness × Sig × Nat × SignState) :=
  let txi := host.inputWitness i
  match input_check_wallet_path st.wallet_path txi with
  | .error e => .error e
  | .ok _ =>
    match input_check_multisig_fingerprint st.multisig_fp txi with
    | .error e => .error e
    | .ok _ =>
      if !input_is_segwit txi || decide (txi.amount > st.bip143_in) then
        .error (.signing .ProcessError msgTxChanged)
      else
        let st' := { st with bip143_in := st.bip143_in - txi.amount }
        let pub := derive_pubkey txi.address_n
        let digest := SigDigest.bip143 st'.h143_prevouts st'.h143_sequence
          st'.h143_outputs tx txi (ecdsa_hash_pubkey pub) get_hash_type
        let signature := ecdsa_sign txi.address_n digest
        match txi.multisig with
        | some ms =>
          match multisig_pubkey_index ms pub with
          | .error e => .error e
          | .ok idx => .ok (.p2wsh ms signature idx get_hash_type, signature, txi.amount, st')
        | none => .ok (.p2wpkh signature pub get_hash_type, signature, txi.amount, st')

/-- Accumulator of the non-segwit signing re-stream: the tamper-check hasher
`h_second`, the signing hasher `h_sign`, and the input being signed (with its
placeholder scriptSig) together with the signing public key once reached. -/
structure P2nsAcc where
  h_second : List Nat
  h_sign : List Nat
  txi_sign : Option TxInputType
  key_pub : Option (List Nat)

/-- One input of the non-segwit signing re-stream (signing.py lines 317-344):
wallet-path check, fold the unmodified copy into `h_second`, and fold into
`h_sign` the copy whose scriptSig is the placeholder (at the signed index,
after the multisig-fingerprint check) or empty (elsewhere). -/
def p2ns_input_step (host : Host) (st : SignState) (i_sign : Nat) (acc : P2nsAcc)
    (i : Nat) : Except RunError P2nsAcc :=
  let txi := host.inputRestream i_sign i
  match input_check_wallet_path st.wallet_path txi with
  | .error e => .error e
  | .ok _ =>
    let acc1 := { acc with h_second := acc.h_second ++ write_tx_input_check txi }
    if i = i_sign then
      match input_check_multisig_fingerprint st.multisig_fp txi with
      | .error e => .error e
      | .ok _ =>
        let pub := derive_pubkey txi.address_n
        match (match txi.script_type with
          | .SPENDMULTISIG =>
            match txi.multisig with
            | none => Except.error (RunError.fault msgMultisigMissing)
            | some ms =>
              Except.ok (HScriptSig.outScript (.multisigOut (multisig_get_pubkeys ms) ms.m))
          | .SPENDADDRESS =>
            Except.ok (HScriptSig.outScript (.p2pkh (ecdsa_hash_pubkey pub)))
          | _ => Except.error (RunError.signing .ProcessError msgUnknownTxType)) with
        | .error e => .error e
        | .ok ss =>
          let txiS := { txi with script_sig := ss }
          .ok { acc1 with
            txi_sign := some txiS
            key_pub := some pub
            h_sign := acc1.h_sign ++ write_tx_input txiS }
    else
      let txi0 := { txi with script_sig := HScriptSig.raw [] }
      .ok { acc1 with h_sign := acc1.h_sign ++ write_tx_input txi0 }

/-- The input re-stream loop of non-segwit signing. -/
def p2ns_inputs (host : Host) (st : SignState) (i_sign : Nat) :
    List Nat → P2nsAcc → Except RunError P2nsAcc
  | [], acc => .ok acc
  | i :: is, acc =>
    match p2ns_input_step host st i_sign acc i with
    | .error e => .error e
    | .ok acc' => p2ns_inputs host st i_sign is acc'

/-- One output of the non-segwit signing re-stream (signing.py lines
349-355): re-derive the script and fold the binary output into both
`h_second` and `h_sign`. -/
def p2ns_output_step (env : Env) (host : Host) (i_sign : Nat) (acc : P2nsAcc)
    (i : Nat) : Except RunError P2nsAcc :=
  let txo := host.outputRestream i_sign i
  match output_derive_script env.coin txo with
  | .error e => .error e
  | .ok spk =>
    .ok { acc with
      h_second := acc.h_second ++ write_tx_output txo.amount (.derived spk)
      h_sign := acc.h_sign ++ write_tx_output txo.amount (.derived spk) }

/-- The output re-stream loop of non-segwit signing. -/
def p2ns_outputs (env : Env) (host : Host) (i_sign : Nat) :
    List Nat → P2nsAcc → Except RunError P2nsAcc
  | [], acc => .ok acc
  | i :: is, acc =>
    match p2ns_output_step env host i_sign acc i with
    | .error e => .error e
    | .ok acc' => p2ns_outputs env host i_sign is acc'

/-- The whole re-stream of non-segwit signing: header into `h_sign`, every
input, the output-count varint into `h_sign`, every output. -/
def p2ns_stream (env : Env) (host : Host) (tx : SignTxMeta) (st : SignState)
    (i_sign : Nat) : Except RunError P2nsAcc :=
  let acc0 : P2nsAcc :=
    { h_second := [], h_sign := write_sign_tx_header tx false
      txi_sign := none, key_pub := none }
  match p2ns_inputs host st i_sign (List.range tx.inputs_count) acc0 with
  | .error e => .error e
  | .ok acc1 =>
    let acc2 := { acc1 with h_sign := acc1.h_sign ++ write_varint tx.outputs_count }
    p2ns_outputs env host i_sign (List.range tx.outputs_count) acc2

/-- `Bitcoin.phase2_sign_nonsegwit_input`: re-stream everything, append the
lock time and hash type to `h_sign`, assert `h_first == h_second`, re-assert
multisig membership of the signing key, sign the `h_sign` digest and
serialize the signed input (prepending the header for index 0).  Returns the
signature index, the signature and the serialized bytes.  The unreachable
case where the signed index was never visited models Python's unbound-local
crash. -/
def phase2_sign_nonsegwit_input (env : Env) (host : Host) (tx : SignTxMeta)
    (st : SignState) (i_sign : Nat) : Except RunError (Nat × Sig × List SerItem) :=
  match p2ns_stream env host tx st i_sign with
  | .error e => .error e
  | .ok acc =>
    let hsign := acc.h_sign ++ write_uint32 tx.lock_time ++ write_uint32 get_hash_type
    if get_tx_hash st.h_first false false ≠ get_tx_hash acc.h_second false false then
      .error (.signing .ProcessError msgTxChanged)
    else
      match acc.txi_sign, acc.key_pub with
      | some txiS, some pub =>
        match (match txiS.multisig with
          | some ms =>
            match multisig_pubkey_index ms pub with
            | .error e => Except.error e
            | .ok _ => Except.ok ()
          | none => Except.ok ()) with
        | .error e => .error e
        | .ok _ =>
          let signature := ecdsa_sign txiS.address_n
            (.txHash (get_tx_hash hsign env.coin.sign_hash_double false))
          match input_derive_script txiS pub (some signature) with
          | .error e => .error e
          | .ok iscript =>
            .ok (i_sign, signature,
              (if i_sign = 0 then
                [SerItem.header (any_segwit st tx) tx.version tx.inputs_count]
               else [])
              ++ [SerItem.txin txiS.prev_hash txiS.prev_index iscript txiS.sequence])
      | _, _ => .error (.fault msgSignUnbound)

/-- `Bitcoin.phase2_serialize_output`. -/
def phase2_serialize_output (env : Env) (host : Host) (tx : SignTxMeta) (i : Nat) :
    Except RunError (List SerItem) :=
  let txo := host.output2 i
  match output_derive_script env.coin txo with
  | .error e => .error e
  | .ok spk =>
    .ok ((if i = 0 then [SerItem.outCount tx.outputs_count] else [])
         ++ [SerItem.txout txo.amount spk])

/-- The first phase-2 pass (serialize inputs, sign non-segwit inputs),
dispatching on the phase-1 segwit classification.  The controller state is
not modified by this pass. -/
def phase2_inputs_loop (env : Env) (host : Host) (tx : SignTxMeta) (st : SignState) :
    List Nat → Except RunError Unit
  | [] => .ok ()
  | i :: is =>
    match (if st.segwit i then
        (phase2_serialize_segwit_input env host tx st i).map (fun _ => ())
      else
        (phase2_sign_nonsegwit_input env host tx st i).map (fun _ => ())) with
    | .error e => .error e
    | .ok _ => phase2_inputs_loop env host tx st is

/-- The second phase-2 pass (serialize outputs). -/
def phase2_outputs_loop (env : Env) (host : Host) (tx : SignTxMeta) :
    List Nat → Except RunError Unit
  | [] => .ok ()
  | i :: is =>
    match phase2_serialize_output env host tx i with
    | .error e => .error e
    | .ok _ => phase2_outputs_loop env host tx is

/-- The third phase-2 pass (signing.py lines 225-243): sign and stream every
segwit-classified input's witness; for a non-segwit-classified input stream
the one-byte empty witness `bytearray(1)` exactly when `anySeg` (computed
once from the whole classification map) holds, and nothing otherwise.
Returns the final state and the per-index emission trace. -/
def phase2_witness_pass (env : Env) (host : Host) (tx : SignTxMeta) (anySeg : Bool) :
    List Nat → SignState → Except RunError (SignState × List WitnessEmit)
  | [], st => .ok (st, [])
  | i :: is, st =>
    if st.segwit i then
      match phase2_sign_segwit_input env host tx st i with
      | .error e => .error e
      | .ok (w, signature, amt, st') =>
        match phase2_witness_pass env host tx anySeg is st' with
        | .error e => .error e
        | .ok (st'', tr) => .ok (st'', .wit i amt w signature :: tr)
    else if anySeg then
      match phase2_witness_pass env host tx anySeg is st with
      | .error e => .error e
      | .ok (st'', tr) => .ok (st'', .stub [0] :: tr)
    else
      match phase2_witness_pass env host tx anySeg is st with
      | .error e => .error e
      | .ok (st'', tr) => .ok (st'', .noemit :: tr)

/-- `Bitcoin.phase2`: the three passes.  The closing lock-time footer and the
finish request carry no checked state and are not modelled. -/
def phase2 (env : Env) (host : Host) (tx : SignTxMeta) (st : SignState) :
    Except RunError (SignState × List WitnessEmit) :=
  match phase2_inputs_loop env host tx st (List.range tx.inputs_count) with
  | .error e => .error e
  | .ok _ =>
    match phase2_outputs_loop env host tx (List.range tx.outputs_count) with
    | .error e => .error e
    | .ok _ =>
      phase2_witness_pass env host tx (any_segwit st tx) (List.range tx.inputs_count) st

/-- `Bitcoin.signer`: phase 1 (collect, verify, confirm) then phase 2
(serialize, sign); any phase-1 error aborts the run before phase 2 starts. -/
def signer (env : Env) (host : Host) (tx : SignTxMeta) :
    Except RunError (SignState × List WitnessEmit) :=
  match phase1 env host tx with
  | .error e => .error e
  | .ok acc => phase2 env host tx acc.st

/- ===== Concrete fixtures for the evaluation theorems ===== -/

/-- A small coin configuration: single sha256 tx hash, P2PKH version byte 0,
P2SH version byte 5, bech32 available. -/
def cCoin : CoinInfo where
  sign_hash_double := false
  maxfee_kb := 1000000
  address_type := 0
  address_type_p2sh := 5
  has_bech32 := true

/-- An environment accepting every derivation path. -/
def cEnv : Env where
  coin := cCoin
  validate_full_path := fun _ _ => true
  weight_total := 4

/-- A referenced previous transaction with one input and one output of
amount 7. -/
def cPrev : PrevTx where
  version := 1
  lock_time := 0
  inputs_cnt := 1
  outputs_cnt := 1
  inputs := fun _ =>
    { prev_hash := [9], prev_index := 0, address_n := [], script_type := .SPENDADDRESS
      multisig := none, amount := 0, sequence := 4294967295, script_sig := .raw [8] }
  outputs := fun _ => { amount := 7, script_pubkey := [5, 5] }

/-- The id `cPrev` actually hashes to under `cCoin`. -/
def cPrevId : List Nat := get_tx_hash (prevtx_txh cPrev) cCoin.sign_hash_double true

/-- A native-segwit input of amount 10. -/
def cTxiW : TxInputType where
  prev_hash := [1]
  prev_index := 0
  address_n := [44, 0, 7, 0, 0]
  script_type := .SPENDWITNESS
  multisig := none
  amount := 10
  sequence := 4294967295
  script_sig := .raw []

/-- A legacy P2PKH input referencing `cPrev`. -/
def cTxiL : TxInputType where
  prev_hash := cPrevId
  prev_index := 0
  address_n := [44, 0, 7, 0, 1]
  script_type := .SPENDADDRESS
  multisig := none
  amount := 0
  sequence := 4294967295
  script_sig := .raw []

/-- A plain pay-to-address output of amount 5. -/
def cTxoPay : TxOutputType where
  amount := 5
  address := .b58 0 [9]
  address_n := []
  script_type := .PAYTOADDRESS
  multisig := none
  op_return_data := []

/-- A host answering every request consistently with the fixtures above:
one segwit input and one payment output. -/
def cHost : Host where
  input1 := fun _ => cTxiW
  output1 := fun _ => cTxoPay
  prev := fun _ => cPrev
  input2 := fun _ => cTxiW
  inputRestream := fun _ _ => cTxiW
  outputRestream := fun _ _ => cTxoPay
  output2 := fun _ => cTxoPay
  inputWitness := fun _ => cTxiW
  confirmOutput := fun _ => true
  confirmForeign := fun _ => true
  confirmFeeOver := fun _ => true
  confirmLocktime := fun _ => true
  confirmTotal := fun _ _ => true

end SignTx

namespace SignTx

/- ===== Helper lemmas ===== -/

/-- The wallet-path re-check fails only with the process error
"Transaction has changed during signing". -/
theorem input_check_wallet_path_error_eq (wp : Option (List Nat)) (txi : TxInputType)
    (e : RunError) (h : input_check_wallet_path wp txi = .error e) :
    e = .signing .ProcessError msgTxChanged := by
  unfold input_check_wallet_path at h
  split at h
  · exact absurd h (by simp)
  · split at h
    · exact absurd h (by simp)
    · exact ((Except.error.injEq _ _).mp h).symm

/-- The multisig-fingerprint re-check fails only with the process error
"Transaction has changed during signing". -/
theorem input_check_multisig_fingerprint_error_eq (fp : MultisigFingerprint)
    (txi : TxInputType) (e : RunError)
    (h : input_check_multisig_fingerprint fp txi = .error e) :
    e = .signing .ProcessError msgTxChanged := by
  unfold input_check_multisig_fingerprint at h
  split at h
  · split at h
    · exact ((Except.error.injEq _ _).mp h).symm
    · split at h
      · exact absurd h (by simp)
      · exact ((Except.error.injEq _ _).mp h).symm
  · exact absurd h (by simp)

/- ===== Claim C7: the wallet path is a one-way latch ===== -/

/-- Claim C7: the wallet-path field of the phase-1 fold starts unset
(`some []`), is adopted from the first input's path truncated by its last two
components, and once it becomes null (`none`) it stays null for the rest of
the run no matter what later inputs look like; a set non-empty path turns
null exactly when an input's truncated path is degenerate (empty) or
disagrees with the adopted one. -/
theorem claim_C7_wallet_path_latch :
    (∀ txi : TxInputType, input_extract_wallet_path none txi = none)
    ∧ (∀ txis : List TxInputType,
        List.foldl input_extract_wallet_path none txis = none)
    ∧ (∀ txi : TxInputType, input_extract_wallet_path (some []) txi =
        (if walletTrunc txi.address_n = [] then none
         else some (walletTrunc txi.address_n)))
    ∧ (∀ (w : List Nat) (txi : TxInputType), w ≠ [] →
        input_extract_wallet_path (some w) txi =
          (if walletTrunc txi.address_n = [] then none
           else if walletTrunc txi.address_n = w then some w else none)) := by
  refine ⟨fun txi => rfl, ?_, ?_, ?_⟩
  · intro txis
    induction txis with
    | nil => rfl
    | cons t ts ih => simpa [input_extract_wallet_path] using ih
  · intro txi
    by_cases h : walletTrunc txi.address_n = []
    · simp [input_extract_wallet_path, h]
    · simp [input_extract_wallet_path, h]
  · intro w txi hw
    by_cases h : walletTrunc txi.address_n = []
    · simp [input_extract_wallet_path, h]
    · by_cases h2 : walletTrunc txi.address_n = w
      · simp [input_extract_wallet_path, h, h2, hw]
      · simp [input_extract_wallet_path, h, hw, h2, Ne.symm h2]

/-- Evaluation of claim C7's conditional part at a concrete input: a set
wallet path `[5]` is latched to null by a disagreeing input. -/
theorem claim_C7_wallet_path_latch_witness :
    input_extract_wallet_path (some [5]) cTxiW = none := by
  have h := claim_C7_wallet_path_latch.2.2.2 [5] cTxiW (by decide)
  rw [h]; decide

/- ===== Claim C5: too-few outputs in a referenced transaction ===== -/

/-- A previous transaction with a single declared output. -/
def cPrevOne : PrevTx where
  version := 1
  lock_time := 0
  inputs_cnt := 1
  outputs_cnt := 1
  inputs := fun _ =>
    { prev_hash := [9], prev_index := 0, address_n := [], script_type := .SPENDADDRESS
      multisig := none, amount := 0, sequence := 4294967295, script_sig := .raw [8] }
  outputs := fun _ => { amount := 3, script_pubkey := [4] }

/-- Counterexample to claim C5: referencing output index 1 of a previous
transaction that declares only 1 output aborts with a ProcessError, not with
the DataError the claim states. -/
theorem claim_C5_counterexample :
    get_prevtx_output_value cCoin (fun _ => cPrevOne) [7] 1
      = .error (.signing .ProcessError msgNotEnoughOutputs)
    ∧ FailureType.ProcessError ≠ FailureType.DataError :=
  ⟨rfl, by decide⟩

/-- Claim C5 (amended): when the referenced previous output index is not less
than the referenced transaction's declared output count, the run aborts, and
the condition is classified as a ProcessError
("Not enough outputs in previous transaction."). -/
theorem claim_C5_too_few_outputs (coin : CoinInfo) (prevReq : List Nat → PrevTx)
    (prev_hash : List Nat) (prev_index : Nat)
    (h : (prevReq prev_hash).outputs_cnt ≤ prev_index) :
    get_prevtx_output_value coin prevReq prev_hash prev_index
      = .error (.signing .ProcessError msgNotEnoughOutputs) := by
  unfold get_prevtx_output_value
  rw [if_pos h]

/-- Evaluation of the amended claim C5 at a concrete input. -/
theorem claim_C5_too_few_outputs_witness :
    get_prevtx_output_value cCoin (fun _ => cPrevOne) [8] 2
      = .error (.signing .ProcessError msgNotEnoughOutputs) :=
  claim_C5_too_few_outputs cCoin (fun _ => cPrevOne) [8] 2 (by decide)

/- ===== Claim C4: the Previous-Transaction Verifier ===== -/

/-- Claim C4: `get_prevtx_output_value` returns the referenced output's
amount only when the final rolling hash over the re-streamed transaction
(double-hashed per the coin config, byte-reversed) equals the referenced id;
when the index is in range and the hash differs it aborts with a
ProcessError; and any error of the verifier propagates out of
`phase1_process_nonsegwit_input`, so no amount is added to the running input
total. -/
theorem claim_C4_prevtx_verifier (coin : CoinInfo) (prevReq : List Nat → PrevTx)
    (prev_hash : List Nat) (prev_index : Nat) :
    (∀ a, get_prevtx_output_value coin prevReq prev_hash prev_index = .ok a →
      get_tx_hash (prevtx_txh (prevReq prev_hash)) coin.sign_hash_double true = prev_hash
      ∧ a = ((prevReq prev_hash).outputs prev_index).amount)
    ∧ (prev_index < (prevReq prev_hash).outputs_cnt →
       get_tx_hash (prevtx_txh (prevReq prev_hash)) coin.sign_hash_double true ≠ prev_hash →
       get_prevtx_output_value coin prevReq prev_hash prev_index
         = .error (.signing .ProcessError msgInvalidPrevHash))
    ∧ (∀ (host : Host) (st : SignState) (i : Nat) (txi : TxInputType) (e : RunError),
       host.prev = prevReq → txi.prev_hash = prev_hash → txi.prev_index = prev_index →
       get_prevtx_output_value coin prevReq prev_hash prev_index = .error e →
       phase1_process_nonsegwit_input host coin st i txi = .error e) := by
  refine ⟨?_, ?_, ?_⟩
  · intro a h
    simp only [get_prevtx_output_value] at h
    split at h
    · exact absurd h (by simp)
    · split at h
      · exact absurd h (by simp)
      · next hne =>
        exact ⟨not_not.mp hne, ((Except.ok.injEq _ _).mp h).symm⟩
  · intro hlt hne
    simp only [get_prevtx_output_value]
    rw [if_neg (not_le.mpr hlt), if_pos hne]
  · intro host st i txi e hpr hh hi herr
    unfold phase1_process_nonsegwit_input
    rw [hpr, hh, hi, herr]

/-- Evaluation of claim C4 at a concrete input: a forged id `[7]` for a
previous transaction that does not hash to it is rejected. -/
theorem claim_C4_prevtx_verifier_witness :
    get_prevtx_output_value cCoin (fun _ => cPrevOne) [7] 0
      = .error (.signing .ProcessError msgInvalidPrevHash) :=
  (claim_C4_prevtx_verifier cCoin (fun _ => cPrevOne) [7] 0).2.1 (by decide) (by decide)

/- ===== Claim C10: the conditional multisig-fingerprint check ===== -/

/-- Every phase-1 input carried a multisig descriptor and all descriptors
agree (the fingerprint commitment is the descriptor itself in the model). -/
def allSameMultisig (txis : List TxInputType) : Prop :=
  match txis with
  | [] => True
  | t :: rest => (∃ m, t.multisig = some m) ∧ ∀ txi ∈ rest, txi.multisig = t.multisig

theorem phase1_fp_step_mismatch_mono (txi : TxInputType) (fp : MultisigFingerprint)
    (h : fp.mismatch = true) : (phase1_fp_step fp txi).mismatch = true := by
  unfold phase1_fp_step MultisigFingerprint.add
  cases txi.multisig with
  | none => simp [h]
  | some ms =>
    cases hf : fp.fingerprint with
    | none => simp [h]
    | some f =>
      by_cases he : f = ms
      · simp [he, h]
      · simp [he]

theorem foldl_fp_mismatch_mono (txis : List TxInputType) (fp : MultisigFingerprint)
    (h : fp.mismatch = true) :
    (List.foldl phase1_fp_step fp txis).mismatch = true := by
  induction txis generalizing fp with
  | nil => exact h
  | cons t ts ih => exact ih _ (phase1_fp_step_mismatch_mono t fp h)

theorem foldl_fp_from_established (txis : List TxInputType) (m : MultisigRedeemScriptType) :
    (List.foldl phase1_fp_step ⟨some m, false⟩ txis).mismatch = false ↔
      ∀ txi ∈ txis, txi.multisig = some m := by
  induction txis with
  | nil => simp
  | cons t ts ih =>
    cases ht : t.multisig with
    | none =>
      have hstep : phase1_fp_step ⟨some m, false⟩ t = ⟨some m, true⟩ := by
        unfold phase1_fp_step; rw [ht]
      rw [List.foldl_cons, hstep]
      simp [foldl_fp_mismatch_mono ts ⟨some m, true⟩ rfl, ht]
    | some m' =>
      by_cases he : m = m'
      · have hstep : phase1_fp_step ⟨some m, false⟩ t = ⟨some m, false⟩ := by
          unfold phase1_fp_step MultisigFingerprint.add; rw [ht]; simp [he]
        rw [List.foldl_cons, hstep, ih]
        constructor
        · intro hall txi hmem
          rcases List.mem_cons.mp hmem with h1 | h2
          · rw [h1, ht, he]
          · exact hall txi h2
        · intro hall txi hmem
          exact hall txi (List.mem_cons_of_mem t hmem)
      · have hstep : phase1_fp_step ⟨some m, false⟩ t = ⟨some m, true⟩ := by
          unfold phase1_fp_step MultisigFingerprint.add; rw [ht]; simp [he]
        rw [List.foldl_cons, hstep]
        simp only [foldl_fp_mismatch_mono ts ⟨some m, true⟩ rfl]
        constructor
        · intro hf; exact absurd hf (by simp)
        · intro hall
          have := hall t (List.mem_cons_self t ts)
          rw [ht] at this
          exact absurd ((Option.some.injEq _ _).mp this).symm he

theorem phase1_fp_mismatch_iff (txis : List TxInputType) :
    (List.foldl phase1_fp_step ⟨none, false⟩ txis).mismatch = false
      ↔ allSameMultisig txis := by
  cases txis with
  | nil => simp [allSameMultisig]
  | cons t ts =>
    cases ht : t.multisig with
    | none =>
      have hstep : phase1_fp_step ⟨none, false⟩ t = ⟨none, true⟩ := by
        unfold phase1_fp_step; rw [ht]
      rw [List.foldl_cons, hstep]
      simp [foldl_fp_mismatch_mono ts ⟨none, true⟩ rfl, allSameMultisig, ht]
    | some m =>
      have hstep : phase1_fp_step ⟨none, false⟩ t = ⟨some m, false⟩ := by
        unfold phase1_fp_step MultisigFingerprint.add; rw [ht]
      rw [List.foldl_cons, hstep, foldl_fp_from_established]
      simp [allSameMultisig, ht]

theorem check_fp_mismatch_true (fp : MultisigFingerprint) (txi : TxInputType)
    (h : fp.mismatch = true) : input_check_multisig_fingerprint fp txi = .ok () := by
  unfold input_check_multisig_fingerprint
  rw [if_neg (by simp [h])]

/-- Claim C10: with the fingerprint state folded over the phase-1 inputs, the
phase-2 check is conditional: when every phase-1 input carried a matching
multisig descriptor, a phase-2 input lacking a descriptor or carrying a
non-matching one aborts with a ProcessError (and a matching one passes);
when any phase-1 input lacked a descriptor or mismatched, the check accepts
any input unconditionally. -/
theorem claim_C10_multisig_fingerprint_check (txis : List TxInputType)
    (txi2 : TxInputType) :
    ((List.foldl phase1_fp_step ⟨none, false⟩ txis).mismatch = false
        ↔ allSameMultisig txis)
    ∧ (allSameMultisig txis →
        (txi2.multisig = none ∨
          (∀ m2, txi2.multisig = some m2 →
            (List.foldl phase1_fp_step ⟨none, false⟩ txis).matches m2 = false)) →
        input_check_multisig_fingerprint
            (List.foldl phase1_fp_step ⟨none, false⟩ txis) txi2
          = .error (.signing .ProcessError msgTxChanged))
    ∧ (¬ allSameMultisig txis →
        input_check_multisig_fingerprint
            (List.foldl phase1_fp_step ⟨none, false⟩ txis) txi2
          = .ok ())
    ∧ (∀ m2, txi2.multisig = some m2 →
        (List.foldl phase1_fp_step ⟨none, false⟩ txis).matches m2 = true →
        input_check_multisig_fingerprint
            (List.foldl phase1_fp_step ⟨none, false⟩ txis) txi2
          = .ok ()) := by
  refine ⟨phase1_fp_mismatch_iff txis, ?_, ?_, ?_⟩
  · intro hall hbad
    have hmf : (List.foldl phase1_fp_step ⟨none, false⟩ txis).mismatch = false :=
      (phase1_fp_mismatch_iff txis).mpr hall
    unfold input_check_multisig_fingerprint
    rw [if_pos hmf]
    cases hms : txi2.multisig with
    | none => rfl
    | some m2 =>
      rcases hbad with hnone | hmatch
      · rw [hms] at hnone; exact absurd hnone (by simp)
      · simp [hmatch m2 hms]
  · intro hnall
    have hmt : (List.foldl phase1_fp_step ⟨none, false⟩ txis).mismatch = true := by
      rcases Bool.eq_false_or_eq_true
          (List.foldl phase1_fp_step ⟨none, false⟩ txis).mismatch with h | h
      · exact h
      · exact absurd ((phase1_fp_mismatch_iff txis).mp h) hnall
    exact check_fp_mismatch_true _ _ hmt
  · intro m2 hms hmt
    unfold input_check_multisig_fingerprint
    cases hmf : (List.foldl phase1_fp_step ⟨none, false⟩ txis).mismatch with
    | false => simp [hms, hmt]
    | true => simp

/-- A 2-of-3 multisig descriptor. -/
def cMs : MultisigRedeemScriptType := ⟨2, [[1], [2], [3]]⟩

/-- A legacy multisig input carrying `cMs`. -/
def cTxiM : TxInputType where
  prev_hash := [2]
  prev_index := 0
  address_n := [44, 0, 7, 0, 2]
  script_type := .SPENDMULTISIG
  multisig := some cMs
  amount := 0
  sequence := 4294967295
  script_sig := .raw []

/-- Evaluation of claim C10 at a concrete input: after a phase 1 whose single
input carried `cMs`, a phase-2 input without a descriptor is rejected. -/
theorem claim_C10_multisig_fingerprint_check_witness :
    input_check_multisig_fingerprint
        (List.foldl phase1_fp_step ⟨none, false⟩ [cTxiM]) cTxiW
      = .error (.signing .ProcessError msgTxChanged) :=
  (claim_C10_multisig_fingerprint_check [cTxiM] cTxiW).2.1
    ⟨⟨cMs, rfl⟩, by simp⟩ (Or.inl rfl)

/- ===== Claim C6: segwit classification must not flip between phases ===== -/

/-- At the signed index, a segwit-typed re-requested descriptor makes the
re-stream step fail with a ProcessError (wallet-path check, fingerprint
check, or the script-type dispatch). -/
theorem p2ns_input_step_at_sign_segwit_error (host : Host) (st : SignState)
    (i_sign : Nat) (acc : P2nsAcc)
    (hsw : input_is_segwit (host.inputRestream i_sign i_sign) = true) :
    ∃ m, p2ns_input_step host st i_sign acc i_sign
      = .error (.signing .ProcessError m) := by
  simp only [p2ns_input_step]
  cases hwp : input_check_wallet_path st.wallet_path (host.inputRestream i_sign i_sign) with
  | error e2 =>
    exact ⟨msgTxChanged, by simp [input_check_wallet_path_error_eq _ _ _ hwp]⟩
  | ok u =>
    cases hfp : input_check_multisig_fingerprint st.multisig_fp
        (host.inputRestream i_sign i_sign) with
    | error e2 =>
      exact ⟨msgTxChanged, by
        simp [input_check_multisig_fingerprint_error_eq _ _ _ hfp]⟩
    | ok u2 =>
      cases hty : (host.inputRestream i_sign i_sign).script_type with
      | SPENDADDRESS => simp [input_is_segwit, hty] at hsw
      | SPENDMULTISIG => simp [input_is_segwit, hty] at hsw
      | EXTERNAL => simp [input_is_segwit, hty] at hsw
      | SPENDWITNESS => exact ⟨msgUnknownTxType, by simp [hty]⟩
      | SPENDP2SHWITNESS => exact ⟨msgUnknownTxType, by simp [hty]⟩

/-- At an index other than the signed one, the re-stream step can fail only
through the wallet-path check, hence with a ProcessError. -/
theorem p2ns_input_step_ne_error (host : Host) (st : SignState) (i_sign : Nat)
    (acc : P2nsAcc) (i : Nat) (hi : i ≠ i_sign) (e : RunError)
    (h : p2ns_input_step host st i_sign acc i = .error e) :
    e = .signing .ProcessError msgTxChanged := by
  simp only [p2ns_input_step] at h
  cases hwp : input_check_wallet_path st.wallet_path (host.inputRestream i_sign i) with
  | error e2 =>
    rw [hwp] at h
    simp only at h
    exact ((Except.error.injEq _ _).mp h) ▸ input_check_wallet_path_error_eq _ _ _ hwp
  | ok u =>
    rw [hwp] at h
    simp only [if_neg hi] at h
    exact absurd h (by simp)

/-- If the non-segwit signing re-stream visits the signed index and finds a
segwit-typed descriptor there, the whole input loop fails with a
ProcessError. -/
theorem p2ns_inputs_segwit_at_sign_error (host : Host) (st : SignState) (i_sign : Nat)
    (hsw : input_is_segwit (host.inputRestream i_sign i_sign) = true) :
    ∀ (is : List Nat) (acc : P2nsAcc), i_sign ∈ is →
      ∃ m, p2ns_inputs host st i_sign is acc
        = .error (.signing .ProcessError m) := by
  intro is
  induction is with
  | nil => intro acc h; exact absurd h (List.not_mem_nil i_sign)
  | cons i is ih =>
    intro acc hmem
    by_cases hi : i = i_sign
    · subst hi
      obtain ⟨m, hm⟩ := p2ns_input_step_at_sign_segwit_error host st i acc hsw
      exact ⟨m, by simp [p2ns_inputs, hm]⟩
    · rcases List.mem_cons.mp hmem with h1 | h2
      · exact absurd h1.symm hi
      · cases hstep : p2ns_input_step host st i_sign acc i with
        | error e =>
          refine ⟨msgTxChanged, ?_⟩
          have he := p2ns_input_step_ne_error host st i_sign acc i hi e hstep
          simp [p2ns_inputs, hstep, he]
        | ok acc' =>
          obtain ⟨m, hm⟩ := ih acc' h2
          exact ⟨m, by simp [p2ns_inputs, hstep, hm]⟩

/-- Claim C6: an input whose re-requested phase-2 descriptor disagrees with
its phase-1 script-family classification makes the run abort with a
ProcessError, and no signature for it is produced: a segwit-classified input
whose descriptor is no longer segwit is rejected by both phase-2 entry points
for segwit inputs, and a non-segwit-classified input whose descriptor claims
a segwit family makes the whole legacy signing routine fail. -/
theorem claim_C6_segwit_classification (env : Env) (host : Host) (tx : SignTxMeta)
    (st : SignState) :
    (∀ i, input_is_segwit (host.input2 i) = false →
      phase2_serialize_segwit_input env host tx st i
        = .error (.signing .ProcessError msgTxChanged))
    ∧ (∀ i, input_is_segwit (host.inputWitness i) = false →
      phase2_sign_segwit_input env host tx st i
        = .error (.signing .ProcessError msgTxChanged))
    ∧ (∀ i_sign, i_sign < tx.inputs_count →
      input_is_segwit (host.inputRestream i_sign i_sign) = true →
      ∃ m, phase2_sign_nonsegwit_input env host tx st i_sign
        = .error (.signing .ProcessError m)) := by
  refine ⟨?_, ?_, ?_⟩
  · intro i h
    simp [phase2_serialize_segwit_input, h]
  · intro i h
    simp only [phase2_sign_segwit_input]
    cases hwp : input_check_wallet_path st.wallet_path (host.inputWitness i) with
    | error e => simp [input_check_wallet_path_error_eq _ _ _ hwp]
    | ok u =>
      cases hfp : input_check_multisig_fingerprint st.multisig_fp (host.inputWitness i) with
      | error e => simp [input_check_multisig_fingerprint_error_eq _ _ _ hfp]
      | ok u2 => simp [h]
  · intro i_sign hlt hsw
    obtain ⟨m, hm⟩ := p2ns_inputs_segwit_at_sign_error host st i_sign hsw
      (List.range tx.inputs_count)
      ⟨[], write_sign_tx_header tx false, none, none⟩
      (List.mem_range.mpr hlt)
    exact ⟨m, by simp [phase2_sign_nonsegwit_input, p2ns_stream, hm]⟩

/-- A host answering every input request with the legacy input `cTxiL`. -/
def cHostL : Host :=
  { cHost with
    input1 := fun _ => cTxiL
    input2 := fun _ => cTxiL
    inputRestream := fun _ _ => cTxiL
    inputWitness := fun _ => cTxiL }

/-- Evaluation of claim C6 at a concrete input: a segwit-classified input
re-requested as a legacy P2PKH descriptor is rejected. -/
theorem claim_C6_segwit_classification_witness :
    phase2_serialize_segwit_input cEnv cHostL ⟨1, 0, 1, 1⟩ initial_state 0
      = .error (.signing .ProcessError msgTxChanged) :=
  (claim_C6_segwit_classification cEnv cHostL ⟨1, 0, 1, 1⟩ initial_state).1 0 (by decide)

/- ===== Claim C9: the unconsumed segwit-amount pool ===== -/

/-- Total amount carried by the real witnesses of an emission trace. -/
def witAmountSum : List WitnessEmit → Nat
  | [] => 0
  | .wit _ a _ _ :: r => a + witAmountSum r
  | .stub _ :: r => witAmountSum r
  | .noemit :: r => witAmountSum r

/-- Sum of the declared amounts of the segwit-typed inputs of a list. -/
def segwitAmountSum : List TxInputType → Nat
  | [] => 0
  | txi :: rest => (if input_is_segwit txi then txi.amount else 0) + segwitAmountSum rest

/-- A successful segwit witness signing consumes exactly the input's amount
from the pool (which must cover it) and changes nothing else. -/
theorem phase2_sign_segwit_input_ok_pool (env : Env) (host : Host) (tx : SignTxMeta)
    (st : SignState) (i : Nat) (w : Witness) (s : Sig) (amt : Nat) (st' : SignState)
    (h : phase2_sign_segwit_input env host tx st i = .ok (w, s, amt, st')) :
    amt ≤ st.bip143_in ∧ st' = { st with bip143_in := st.bip143_in - amt } := by
  simp only [phase2_sign_segwit_input] at h
  split at h
  · exact absurd h (by simp)
  · split at h
    · exact absurd h (by simp)
    · split at h
      · exact absurd h (by simp)
      · next hcond =>
        have hle : (host.inputWitness i).amount ≤ st.bip143_in := by
          simp only [Bool.or_eq_true, not_or, Bool.not_eq_true,
            decide_eq_true_eq] at hcond
          omega
        split at h
        · split at h
          · exact absurd h (by simp)
          · simp only [Except.ok.injEq, Prod.mk.injEq] at h
            obtain ⟨hw, hs, hamt, hst⟩ := h
            subst hamt
            exact ⟨hle, hst.symm⟩
        · simp only [Except.ok.injEq, Prod.mk.injEq] at h
          obtain ⟨hw, hs, hamt, hst⟩ := h
          subst hamt
          exact ⟨hle, hst.symm⟩

/-- Pool conservation over the witness pass: the final pool plus the sum of
witnessed amounts equals the starting pool, and the classification map is
unchanged. -/
theorem phase2_witness_pass_pool (env : Env) (host : Host) (tx : SignTxMeta)
    (anySeg : Bool) :
    ∀ (is : List Nat) (st st' : SignState) (tr : List WitnessEmit),
      phase2_witness_pass env host tx anySeg is st = .ok (st', tr) →
      st'.bip143_in + witAmountSum tr = st.bip143_in := by
  intro is
  induction is with
  | nil =>
    intro st st' tr h
    simp only [phase2_witness_pass, Except.ok.injEq, Prod.mk.injEq] at h
    obtain ⟨h1, h2⟩ := h
    subst h1; subst h2
    simp [witAmountSum]
  | cons i is ih =>
    intro st st' tr h
    simp only [phase2_witness_pass] at h
    split at h
    · -- segwit input: sign then recurse
      split at h
      · exact absurd h (by simp)
      · next w s amt st1 hsig =>
        split at h
        · exact absurd h (by simp)
        · next st2 tr2 hrec =>
          simp only [Except.ok.injEq, Prod.mk.injEq] at h
          obtain ⟨h1, h2⟩ := h
          subst h1; subst h2
          obtain ⟨hle, hst1⟩ :=
            phase2_sign_segwit_input_ok_pool env host tx st i w s amt st1 hsig
          have hih := ih st1 st2 tr2 hrec
          subst hst1
          have hred : ({ st with bip143_in := st.bip143_in - amt } : SignState).bip143_in
              = st.bip143_in - amt := rfl
          rw [hred] at hih
          simp only [witAmountSum]
          omega
    · -- non-segwit with some segwit in the transaction: stub
      split at h
      · split at h
        · exact absurd h (by simp)
        · next st2 tr2 hrec =>
          simp only [Except.ok.injEq, Prod.mk.injEq] at h
          obtain ⟨h1, h2⟩ := h
          subst h1; subst h2
          have hih := ih st st2 tr2 hrec
          simpa [witAmountSum] using hih
      · split at h
        · exact absurd h (by simp)
        · next st2 tr2 hrec =>
          simp only [Except.ok.injEq, Prod.mk.injEq] at h
          obtain ⟨h1, h2⟩ := h
          subst h1; subst h2
          have hih := ih st st2 tr2 hrec
          simpa [witAmountSum] using hih

/-- One phase-1 input adds its amount to the segwit pool exactly when it is
segwit-typed. -/
theorem phase1_process_input_bip143 (env : Env) (host : Host) (st : SignState)
    (i : Nat) (txi : TxInputType) (st1 : SignState)
    (h : phase1_process_input env host st i txi = .ok st1) :
    st1.bip143_in = st.bip143_in + (if input_is_segwit txi then txi.amount else 0) := by
  simp only [phase1_process_input] at h
  split at h
  · exact absurd h (by simp)
  · split at h
    · -- SPENDWITNESS
      next hty =>
      simp only [phase1_process_segwit_input] at h
      split at h
      · exact absurd h (by simp)
      · simp only [Except.ok.injEq] at h
        subst h
        simp [input_is_segwit, hty, hash143_add_sequence, hash143_add_prevouts]
    · -- SPENDP2SHWITNESS
      next hty =>
      simp only [phase1_process_segwit_input] at h
      split at h
      · exact absurd h (by simp)
      · simp only [Except.ok.injEq] at h
        subst h
        simp [input_is_segwit, hty, hash143_add_sequence, hash143_add_prevouts]
    · -- SPENDADDRESS
      next hty =>
      simp only [phase1_process_nonsegwit_input] at h
      split at h
      · exact absurd h (by simp)
      · simp only [Except.ok.injEq] at h
        subst h
        simp [input_is_segwit, hty, hash143_add_sequence, hash143_add_prevouts]
    · -- SPENDMULTISIG
      next hty =>
      simp only [phase1_process_nonsegwit_input] at h
      split at h
      · exact absurd h (by simp)
      · simp only [Except.ok.injEq] at h
        subst h
        simp [input_is_segwit, hty, hash143_add_sequence, hash143_add_prevouts]
    · exact absurd h (by simp)

/-- Over the phase-1 input loop the pool accumulates exactly the segwit
amounts. -/
theorem phase1_inputs_loop_bip143 (env : Env) (host : Host) :
    ∀ (is : List Nat) (st0 st' : SignState),
      phase1_inputs_loop env host is st0 = .ok st' →
      st'.bip143_in = st0.bip143_in + segwitAmountSum (is.map host.input1) := by
  intro is
  induction is with
  | nil =>
    intro st0 st' h
    simp only [phase1_inputs_loop, Except.ok.injEq] at h
    subst h
    simp [segwitAmountSum]
  | cons i is ih =>
    intro st0 st' h
    simp only [phase1_inputs_loop] at h
    split at h
    · exact absurd h (by simp)
    · next st1 hstep =>
      have h1 := phase1_process_input_bip143 env host st0 i (host.input1 i) st1 hstep
      have h2 := ih st1 st' h
      simp only [List.map_cons, segwitAmountSum]
      omega

/-- Claim C9: the segwit-amount pool bounds phase-2 segwit signing.  A segwit
input whose re-requested amount exceeds the remaining pool aborts with a
ProcessError; a successful signing decrements the pool by the amount;
consequently over the whole witness pass the sum of signed amounts never
exceeds the pool, which phase 1 set to exactly the sum of the declared
segwit input amounts. -/
theorem claim_C9_segwit_pool (env : Env) (host : Host) (tx : SignTxMeta) :
    (∀ (st : SignState) (i : Nat), (host.inputWitness i).amount > st.bip143_in →
      phase2_sign_segwit_input env host tx st i
        = .error (.signing .ProcessError msgTxChanged))
    ∧ (∀ (anySeg : Bool) (is : List Nat) (st st' : SignState) (tr : List WitnessEmit),
        phase2_witness_pass env host tx anySeg is st = .ok (st', tr) →
        st'.bip143_in + witAmountSum tr = st.bip143_in ∧ witAmountSum tr ≤ st.bip143_in)
    ∧ (∀ st', phase1_inputs_loop env host (List.range tx.inputs_count) initial_state
          = .ok st' →
        st'.bip143_in = segwitAmountSum ((List.range tx.inputs_count).map host.input1))
    ∧ (∀ (anySeg : Bool) (st1 stF : SignState) (tr : List WitnessEmit),
        phase1_inputs_loop env host (List.range tx.inputs_count) initial_state = .ok st1 →
        phase2_witness_pass env host tx anySeg (List.range tx.inputs_count) st1
          = .ok (stF, tr) →
        witAmountSum tr ≤ segwitAmountSum ((List.range tx.inputs_count).map host.input1)) := by
  refine ⟨?_, ?_, ?_, ?_⟩
  · intro st i hgt
    simp only [phase2_sign_segwit_input]
    cases hwp : input_check_wallet_path st.wallet_path (host.inputWitness i) with
    | error e => simp [input_check_wallet_path_error_eq _ _ _ hwp]
    | ok u =>
      cases hfp : input_check_multisig_fingerprint st.multisig_fp (host.inputWitness i) with
      | error e => simp [input_check_multisig_fingerprint_error_eq _ _ _ hfp]
      | ok u2 => simp [hgt]
  · intro anySeg is st st' tr h
    have := phase2_witness_pass_pool env host tx anySeg is st st' tr h
    exact ⟨this, by omega⟩
  · intro st' h
    have := phase1_inputs_loop_bip143 env host (List.range tx.inputs_count)
      initial_state st' h
    simpa [initial_state] using this
  · intro anySeg st1 stF tr h1 h2
    have e1 := phase1_inputs_loop_bip143 env host (List.range tx.inputs_count)
      initial_state st1 h1
    have e2 := phase2_witness_pass_pool env host tx anySeg
      (List.range tx.inputs_count) st1 stF tr h2
    simp only [initial_state] at e1
    omega

/-- Evaluation of claim C9 at a concrete input: a segwit input claiming
amount 10 against an empty pool is rejected. -/
theorem claim_C9_segwit_pool_witness :
    phase2_sign_segwit_input cEnv cHost ⟨1, 0, 1, 1⟩ initial_state 0
      = .error (.signing .ProcessError msgTxChanged) :=
  (claim_C9_segwit_pool cEnv cHost ⟨1, 0, 1, 1⟩).1 initial_state 0 (by decide)

/- ===== Claim C8: empty-witness stubs for legacy inputs ===== -/

/-- Per-position characterization of the witness-pass trace over any index
list: the classification map is preserved, the trace has one emission per
index, a segwit-classified index yields a real witness tagged with that
index, and a non-segwit-classified index yields the one-byte stub exactly
when `anySeg` holds and nothing otherwise. -/
theorem phase2_witness_pass_trace (env : Env) (host : Host) (tx : SignTxMeta)
    (anySeg : Bool) :
    ∀ (is : List Nat) (st st' : SignState) (tr : List WitnessEmit),
      phase2_witness_pass env host tx anySeg is st = .ok (st', tr) →
      st'.segwit = st.segwit ∧ tr.length = is.length ∧
      ∀ (k : Nat) (hk : k < is.length),
        (st.segwit (is.get ⟨k, hk⟩) = true →
          ∃ a w s, tr.get? k = some (.wit (is.get ⟨k, hk⟩) a w s))
        ∧ (st.segwit (is.get ⟨k, hk⟩) = false →
          tr.get? k = some (if anySeg then .stub [0] else .noemit)) := by
  intro is
  induction is with
  | nil =>
    intro st st' tr h
    simp only [phase2_witness_pass, Except.ok.injEq, Prod.mk.injEq] at h
    obtain ⟨h1, h2⟩ := h
    subst h1; subst h2
    exact ⟨rfl, rfl, fun k hk => absurd hk (by simp)⟩
  | cons i is ih =>
    intro st st' tr h
    simp only [phase2_witness_pass] at h
    split at h
    · next hseg =>
      split at h
      · exact absurd h (by simp)
      · next w s amt st1 hsig =>
        split at h
        · exact absurd h (by simp)
        · next st2 tr2 hrec =>
          simp only [Except.ok.injEq, Prod.mk.injEq] at h
          obtain ⟨h1, h2⟩ := h
          subst h1; subst h2
          obtain ⟨hle, hst1⟩ :=
            phase2_sign_segwit_input_ok_pool env host tx st i w s amt st1 hsig
          have hsegeq : st1.segwit = st.segwit := by rw [hst1]
          obtain ⟨ihseg, ihlen, ihk⟩ := ih st1 st2 tr2 hrec
          refine ⟨by rw [ihseg, hsegeq], by simpa using ihlen, ?_⟩
          intro k hk
          cases k with
          | zero =>
            constructor
            · intro _; exact ⟨amt, w, s, rfl⟩
            · intro hcontra
              simp only [List.get] at hcontra
              rw [hseg] at hcontra
              exact absurd hcontra (by simp)
          | succ k' =>
            have hk' : k' < is.length := by simpa using hk
            have := ihk k' hk'
            rw [hsegeq] at this
            exact this
    · next hseg =>
      have hb : st.segwit i = false := by
        rcases Bool.eq_false_or_eq_true (st.segwit i) with ht | hf
        · exact absurd ht hseg
        · exact hf
      split at h
      · next hA =>
        split at h
        · exact absurd h (by simp)
        · next st2 tr2 hrec =>
          simp only [Except.ok.injEq, Prod.mk.injEq] at h
          obtain ⟨h1, h2⟩ := h
          subst h1; subst h2
          obtain ⟨ihseg, ihlen, ihk⟩ := ih st st2 tr2 hrec
          refine ⟨ihseg, by simpa using ihlen, ?_⟩
          intro k hk
          cases k with
          | zero =>
            constructor
            · intro hcontra
              simp only [List.get] at hcontra
              rw [hb] at hcontra
              exact absurd hcontra (by simp)
            · intro _; simp [hA]
          | succ k' =>
            have hk' : k' < is.length := by simpa using hk
            exact ihk k' hk'
      · next hA =>
        have hAf : anySeg = false := by
          rcases Bool.eq_false_or_eq_true anySeg with ht | hf
          · exact absurd ht hA
          · exact hf
        split at h
        · exact absurd h (by simp)
        · next st2 tr2 hrec =>
          simp only [Except.ok.injEq, Prod.mk.injEq] at h
          obtain ⟨h1, h2⟩ := h
          subst h1; subst h2
          obtain ⟨ihseg, ihlen, ihk⟩ := ih st st2 tr2 hrec
          refine ⟨ihseg, by simpa using ihlen, ?_⟩
          intro k hk
          cases k with
          | zero =>
            constructor
            · intro hcontra
              simp only [List.get] at hcontra
              rw [hb] at hcontra
              exact absurd hcontra (by simp)
            · intro _; simp [hAf]
          | succ k' =>
            have hk' : k' < is.length := by simpa using hk
            exact ihk k' hk'

/-- Claim C8: in the phase-2 witness pass over all input indices, a
non-segwit-classified index streams the one-byte empty-witness stub
`bytearray(1)` if and only if at least one input of the transaction is
segwit-classified; when no input is segwit, no stub is emitted at all (and
every segwit-classified index streams a real witness at its own position). -/
theorem claim_C8_witness_stubs (env : Env) (host : Host) (tx : SignTxMeta)
    (st st' : SignState) (tr : List WitnessEmit)
    (h : phase2_witness_pass env host tx (any_segwit st tx)
        (List.range tx.inputs_count) st = .ok (st', tr)) :
    tr.length = tx.inputs_count
    ∧ (∀ i, i < tx.inputs_count → st.segwit i = false →
        tr.get? i = some (if any_segwit st tx then .stub [0] else .noemit))
    ∧ (∀ i, i < tx.inputs_count → st.segwit i = true →
        ∃ a w s, tr.get? i = some (.wit i a w s))
    ∧ ((∀ i, i < tx.inputs_count → st.segwit i = false) →
        ∀ e ∈ tr, e ≠ .stub [0]) := by
  obtain ⟨hseg, hlen, hk⟩ :=
    phase2_witness_pass_trace env host tx (any_segwit st tx)
      (List.range tx.inputs_count) st st' tr h
  have hlen' : tr.length = tx.inputs_count := by simpa using hlen
  have part2 : ∀ i, i < tx.inputs_count → st.segwit i = false →
      tr.get? i = some (if any_segwit st tx then .stub [0] else .noemit) := by
    intro i hi hfalse
    have hi' : i < (List.range tx.inputs_count).length := by simpa using hi
    have := (hk i hi').2
    rw [List.get_range] at this
    exact this hfalse
  have part3 : ∀ i, i < tx.inputs_count → st.segwit i = true →
      ∃ a w s, tr.get? i = some (.wit i a w s) := by
    intro i hi htrue
    have hi' : i < (List.range tx.inputs_count).length := by simpa using hi
    have := (hk i hi').1
    rw [List.get_range] at this
    exact this htrue
  refine ⟨hlen', part2, part3, ?_⟩
  intro hall e hmem
  have hA : any_segwit st tx = false := by
    by_contra hc
    rw [Bool.not_eq_false, any_segwit, List.any_eq_true] at hc
    obtain ⟨i, hi, hsi⟩ := hc
    rw [List.mem_range] at hi
    rw [hall i hi] at hsi
    exact absurd hsi (by simp)
  obtain ⟨n, hget⟩ := List.mem_iff_get.mp hmem
  have hklt : (n : Nat) < tx.inputs_count := by rw [← hlen']; exact n.2
  have h2 := part2 n.1 hklt (hall n.1 hklt)
  rw [hA] at h2
  have hq : tr.get? n.1 = some e := by rw [List.get?_eq_get n.2, hget]
  rw [hq] at h2
  simp only [Option.some.injEq] at h2
  rw [h2]
  decide

/-- A mixed-classification state: input 0 segwit, all others legacy; the
pool holds the 10 units input 0 declared; wallet path and fingerprint checks
are latched off. -/
def cStMix : SignState :=
  { initial_state with
    wallet_path := none
    multisig_fp := ⟨none, true⟩
    bip143_in := 10
    segwit := fun j => j == 0 }

/-- The signature the model computes for the segwit input of the mixed run. -/
def cSigW : Sig :=
  .ecdsa [44, 0, 7, 0, 0] (.bip143 [] [] [] ⟨1, 0, 2, 1⟩ cTxiW [31, 30, 44, 0, 7, 0, 0] 1)

/-- The emission trace of the mixed run: a witness for input 0, a one-byte
stub for input 1. -/
def cWitTrace : List WitnessEmit :=
  [.wit 0 10 (.p2wpkh cSigW [30, 44, 0, 7, 0, 0] 1) cSigW, .stub [0]]

/-- Evaluation of claim C8 at a concrete input: in a two-input transaction
with one segwit input, the legacy input at index 1 receives the one-byte
stub. -/
theorem claim_C8_witness_stubs_witness :
    cWitTrace.get? 1
      = some (if any_segwit cStMix ⟨1, 0, 2, 1⟩ then WitnessEmit.stub [0]
              else WitnessEmit.noemit) :=
  (claim_C8_witness_stubs cEnv cHost ⟨1, 0, 2, 1⟩ cStMix
      { cStMix with bip143_in := 0 } cWitTrace (by rfl)).2.1 1 (by decide) (by decide)

/- ===== Claim C2: negative fee aborts before phase 2 ===== -/

/-- Claim C2: when both phase-1 loops complete and the running input total is
less than the running output total (fee < 0), the whole signing run returns
the NotEnoughFunds error — the abort happens inside phase 1, so phase 2 and
every signing path in it are never reached. -/
theorem claim_C2_negative_fee (env : Env) (host : Host) (tx : SignTxMeta)
    (st : SignState) (acc : OutLoopAcc)
    (h1 : phase1_inputs_loop env host (List.range tx.inputs_count) initial_state
      = .ok st)
    (h2 : phase1_outputs_loop env host (List.range tx.outputs_count) ⟨st, []⟩
      = .ok acc)
    (h3 : acc.st.total_in < acc.st.total_out) :
    signer env host tx = .error (.signing .NotEnoughFunds msgNotEnoughFunds) := by
  have hfee : ((acc.st.total_in : Int) - (acc.st.total_out : Int)) < 0 := by omega
  simp [signer, phase1, h1, h2, hfee]

/-- A host whose single output (20 units) exceeds the single segwit input
(10 units). -/
def cHostNeg : Host :=
  { cHost with
    output1 := fun _ =>
      { amount := 20, address := .b58 0 [9], address_n := []
        script_type := .PAYTOADDRESS, multisig := none, op_return_data := [] } }

/-- Evaluation of claim C2 at a concrete input: spending 10 into 20 aborts
the whole run with NotEnoughFunds. -/
theorem claim_C2_negative_fee_witness :
    signer cEnv cHostNeg ⟨1, 0, 1, 1⟩
      = .error (.signing .NotEnoughFunds msgNotEnoughFunds) :=
  claim_C2_negative_fee cEnv cHostNeg ⟨1, 0, 1, 1⟩ _ _ rfl rfl (by decide)

/- ===== Claim C1: the control-digest check gates legacy signing ===== -/

/-- Claim C1: in the legacy signing routine, once the re-stream of every
input and output has been folded into `h_second`, a digest of `h_first`
differing from the digest of `h_second` makes the routine return the
ProcessError "Transaction has changed during signing" — the error is raised
at the digest comparison, before the signature is computed; and conversely a
signature is returned only when the two digests (and hence, by injectivity of
the modelled hash, the two streams) are equal. -/
theorem claim_C1_control_digest (env : Env) (host : Host) (tx : SignTxMeta)
    (st : SignState) (i_sign : Nat) :
    (∀ acc, p2ns_stream env host tx st i_sign = .ok acc →
      get_tx_hash st.h_first false false ≠ get_tx_hash acc.h_second false false →
      phase2_sign_nonsegwit_input env host tx st i_sign
        = .error (.signing .ProcessError msgTxChanged))
    ∧ (∀ r, phase2_sign_nonsegwit_input env host tx st i_sign = .ok r →
      ∃ acc, p2ns_stream env host tx st i_sign = .ok acc
        ∧ get_tx_hash acc.h_second false false = get_tx_hash st.h_first false false
        ∧ acc.h_second = st.h_first) := by
  constructor
  · intro acc hacc hne
    simp [phase2_sign_nonsegwit_input, hacc, hne]
  · intro r h
    cases hs : p2ns_stream env host tx st i_sign with
    | error e => simp [phase2_sign_nonsegwit_input, hs] at h
    | ok acc =>
      simp only [phase2_sign_nonsegwit_input, hs] at h
      split at h
      · exact absurd h (by simp)
      · next hnp =>
        have heq : get_tx_hash st.h_first false false
            = get_tx_hash acc.h_second false false := not_not.mp hnp
        have hcons : (256 : Nat) :: st.h_first = 256 :: acc.h_second := heq
        have hstream : acc.h_second = st.h_first :=
          (List.cons_injective.eq_iff.mp hcons).symm
        exact ⟨acc, rfl, heq.symm, hstream⟩

/-- The signing-state of the tampering scenario: phase-1 recorded a digest
over different data (`h_first = [999]`). -/
def cStC1 : SignState :=
  { initial_state with
    wallet_path := none
    multisig_fp := ⟨none, true⟩
    h_first := [999] }

/-- Evaluation of claim C1 at a concrete input: a legacy input whose
re-streamed data does not match the phase-1 digest is rejected. -/
theorem claim_C1_control_digest_witness :
    phase2_sign_nonsegwit_input cEnv cHostL ⟨1, 0, 1, 1⟩ cStC1 0
      = .error (.signing .ProcessError msgTxChanged) :=
  (claim_C1_control_digest cEnv cHostL ⟨1, 0, 1, 1⟩ cStC1 0).1 _ rfl (by decide)

/- ===== Claim C3: which outputs skip explicit confirmation ===== -/

/-- A phase-1 state after inputs whose common truncated path is `[44,0,7]`. -/
def cSt3 : SignState := { initial_state with wallet_path := some [44, 0, 7] }

/-- A change-eligible output of amount 0. -/
def cTxoChg0 : TxOutputType where
  amount := 0
  address := .malformed []
  address_n := [44, 0, 7, 1, 5]
  script_type := .PAYTOADDRESS
  multisig := none
  op_return_data := []

/-- A change-eligible output of amount 5. -/
def cTxoChg5 : TxOutputType where
  amount := 5
  address := .malformed []
  address_n := [44, 0, 7, 0, 2]
  script_type := .PAYTOADDRESS
  multisig := none
  op_return_data := []

/-- A host streaming the zero-amount change-eligible output first, then a
second change-eligible output, and declining every confirmation request. -/
def cHost3 : Host :=
  { cHost with
    output1 := fun i => if i = 0 then cTxoChg0 else cTxoChg5
    confirmOutput := fun _ => false }

/-- Counterexample to claim C3: both outputs satisfy the change predicate and
every confirmation request would be declined, yet the phase-1 output loop
succeeds without a single confirmation request (`asked = []`): because the
first change-eligible output has amount 0, the recorded change stays 0 and
the second change-eligible output also skips confirmation, instead of
requiring one or aborting with ActionCancelled as the claim states. -/
theorem claim_C3_counterexample :
    output_is_change_wf cSt3.wallet_path cSt3.multisig_fp (cHost3.output1 0) = true
    ∧ output_is_change_wf cSt3.wallet_path cSt3.multisig_fp (cHost3.output1 1) = true
    ∧ cHost3.confirmOutput 1 = false
    ∧ (phase1_outputs_loop cEnv cHost3 (List.range 2) ⟨cSt3, []⟩).map OutLoopAcc.asked
        = .ok [] :=
  ⟨by decide, by decide, rfl, by rfl⟩

/-- The amended skip predicate: output `i` skips explicit confirmation iff it
satisfies the change predicate and no earlier output both satisfies the
change predicate and has a nonzero amount. -/
def skipW (W : Option (List Nat)) (F : MultisigFingerprint) (host : Host) (i : Nat) :
    Bool :=
  output_is_change_wf W F (host.output1 i)
  && (List.range i).all (fun j =>
      !(output_is_change_wf W F (host.output1 j)
        && decide ((host.output1 j).amount ≠ 0)))

theorem noPriorB_iff (W : Option (List Nat)) (F : MultisigFingerprint) (host : Host)
    (i : Nat) :
    ((List.range i).all (fun j =>
        !(output_is_change_wf W F (host.output1 j)
          && decide ((host.output1 j).amount ≠ 0))) = true)
    ↔ ∀ j, j < i →
        ¬(output_is_change_wf W F (host.output1 j) = true
          ∧ (host.output1 j).amount ≠ 0) := by
  rw [List.all_eq_true]
  constructor
  · intro h j hj hand
    have hh := h j (List.mem_range.mpr hj)
    rw [hand.1] at hh
    simp [hand.2] at hh
  · intro h j hjmem
    have hj := List.mem_range.mp hjmem
    have hnot := h j hj
    rcases Bool.eq_false_or_eq_true (output_is_change_wf W F (host.output1 j)) with ha | ha
    · have h0 : (host.output1 j).amount = 0 :=
        not_not.mp (fun hP => hnot ⟨ha, hP⟩)
      simp [ha, h0]
    · simp [ha]

/-- Case analysis of one output step once script derivation succeeded: the
change-skip path, the confirmed path, or the declined abort. -/
theorem phase1_confirm_output_split (env : Env) (host : Host) (st : SignState)
    (asked : List Nat) (i : Nat) (txo : TxOutputType) (s : Script)
    (hd : output_derive_script env.coin txo = .ok s) :
    (st.change_out = 0
      ∧ output_is_change_wf st.wallet_path st.multisig_fp txo = true
      ∧ phase1_confirm_output env host ⟨st, asked⟩ i txo
          = .ok ⟨outWrites { st with change_out := txo.amount } txo s, asked⟩)
    ∨ (¬(st.change_out = 0
          ∧ output_is_change_wf st.wallet_path st.multisig_fp txo = true)
      ∧ host.confirmOutput i = true
      ∧ phase1_confirm_output env host ⟨st, asked⟩ i txo
          = .ok ⟨outWrites st txo s, asked ++ [i]⟩)
    ∨ (¬(st.change_out = 0
          ∧ output_is_change_wf st.wallet_path st.multisig_fp txo = true)
      ∧ host.confirmOutput i = false
      ∧ phase1_confirm_output env host ⟨st, asked⟩ i txo
          = .error (.signing .ActionCancelled msgOutputCancelled)) := by
  by_cases hc : st.change_out = 0
      ∧ output_is_change_wf st.wallet_path st.multisig_fp txo = true
  · left
    refine ⟨hc.1, hc.2, ?_⟩
    simp [phase1_confirm_output, hd, hc.1, hc.2]
  · have hcb : ¬(decide (st.change_out = 0)
        && output_is_change_wf st.wallet_path st.multisig_fp txo) = true := by
      simp only [Bool.and_eq_true, decide_eq_true_eq]
      exact hc
    cases hcf : host.confirmOutput i with
    | true =>
      right; left
      refine ⟨hc, rfl, ?_⟩
      simp [phase1_confirm_output, hd, hcb, hcf]
    | false =>
      right; right
      refine ⟨hc, rfl, ?_⟩
      simp [phase1_confirm_output, hd, hcb, hcf]

/-- The asked-trace characterization of the phase-1 output loop over the
index window `range' k m`: on success, explicit confirmation was requested
exactly for the non-skipping indices.  The third hypothesis is the running
invariant: the recorded change amount is still zero iff no earlier output was
change-eligible with a nonzero amount. -/
theorem outputs_loop_asked (env : Env) (host : Host) (W : Option (List Nat))
    (F : MultisigFingerprint) :
    ∀ (m k : Nat) (st : SignState) (asked : List Nat) (acc' : OutLoopAcc),
      st.wallet_path = W → st.multisig_fp = F →
      (st.change_out = 0 ↔ ∀ j, j < k →
        ¬(output_is_change_wf W F (host.output1 j) = true
          ∧ (host.output1 j).amount ≠ 0)) →
      phase1_outputs_loop env host (List.range' k m) ⟨st, asked⟩ = .ok acc' →
      acc'.asked = asked ++ (List.range' k m).filter (fun i => !skipW W F host i) := by
  intro m
  induction m with
  | zero =>
    intro k st asked acc' hW hF hinv h
    have hr : List.range' k 0 = [] := rfl
    rw [hr] at h ⊢
    simp only [phase1_outputs_loop, Except.ok.injEq] at h
    subst h
    simp
  | succ m ih =>
    intro k st asked acc' hW hF hinv h
    have hr : List.range' k (m + 1) = k :: List.range' (k + 1) m := rfl
    rw [hr] at h ⊢
    simp only [phase1_outputs_loop] at h
    split at h
    · exact absurd h (by simp)
    · next acc1 hstep =>
      cases hd : output_derive_script env.coin (host.output1 k) with
      | error e' =>
        have hbad : phase1_confirm_output env host ⟨st, asked⟩ k (host.output1 k)
            = .error e' := by
          simp [phase1_confirm_output, hd]
        rw [hbad] at hstep
        exact absurd hstep (by simp)
      | ok s =>
        subst hW; subst hF
        rcases phase1_confirm_output_split env host st asked k (host.output1 k) s hd with
          ⟨hc0, helig, heq⟩ | ⟨hnc, hcf, heq⟩ | ⟨hnc, hcf, heq⟩
        · -- skip: the output is treated as change
          have hacc1 : acc1
              = ⟨outWrites { st with change_out := (host.output1 k).amount }
                  (host.output1 k) s, asked⟩ :=
            ((Except.ok.injEq _ _).mp (heq.symm.trans hstep)).symm
          subst hacc1
          have hskipk : skipW st.wallet_path st.multisig_fp host k = true := by
            unfold skipW
            rw [Bool.and_eq_true]
            exact ⟨helig,
              (noPriorB_iff st.wallet_path st.multisig_fp host k).mpr (hinv.mp hc0)⟩
          have hinv' : (outWrites { st with change_out := (host.output1 k).amount }
                (host.output1 k) s).change_out = 0 ↔
              ∀ j, j < k + 1 →
                ¬(output_is_change_wf st.wallet_path st.multisig_fp (host.output1 j) = true
                  ∧ (host.output1 j).amount ≠ 0) := by
            show (host.output1 k).amount = 0 ↔ _
            constructor
            · intro h0 j hjk1
              rcases Nat.lt_succ_iff_lt_or_eq.mp hjk1 with hj | hj
              · exact hinv.mp hc0 j hj
              · subst hj
                rintro ⟨he, hnz⟩
                exact hnz h0
            · intro hall
              by_contra hnz
              exact hall k (Nat.lt_succ_self k) ⟨helig, hnz⟩
          have hres := ih (k + 1)
            (outWrites { st with change_out := (host.output1 k).amount } (host.output1 k) s)
            asked acc' rfl rfl hinv' h
          rw [hres, List.filter_cons]
          simp [hskipk]
        · -- confirmed: the output needed explicit confirmation
          have hacc1 : acc1 = ⟨outWrites st (host.output1 k) s, asked ++ [k]⟩ :=
            ((Except.ok.injEq _ _).mp (heq.symm.trans hstep)).symm
          subst hacc1
          have hskipk : skipW st.wallet_path st.multisig_fp host k = false := by
            rcases Bool.eq_false_or_eq_true
                (output_is_change_wf st.wallet_path st.multisig_fp (host.output1 k)) with
              he | he
            · have hc : st.change_out ≠ 0 := fun h0 => hnc ⟨h0, he⟩
              have hnall : ¬(∀ j, j < k →
                  ¬(output_is_change_wf st.wallet_path st.multisig_fp (host.output1 j) = true
                    ∧ (host.output1 j).amount ≠ 0)) :=
                fun hall => hc (hinv.mpr hall)
              rcases Bool.eq_false_or_eq_true
                  ((List.range k).all (fun j =>
                    !(output_is_change_wf st.wallet_path st.multisig_fp (host.output1 j)
                      && decide ((host.output1 j).amount ≠ 0)))) with ha | ha
              · exact absurd
                  ((noPriorB_iff st.wallet_path st.multisig_fp host k).mp ha) hnall
              · unfold skipW
                rw [ha]
                simp
            · unfold skipW
              rw [he]
              simp
          have hinv' : (outWrites st (host.output1 k) s).change_out = 0 ↔
              ∀ j, j < k + 1 →
                ¬(output_is_change_wf st.wallet_path st.multisig_fp (host.output1 j) = true
                  ∧ (host.output1 j).amount ≠ 0) := by
            show st.change_out = 0 ↔ _
            constructor
            · intro h0 j hjk1
              rcases Nat.lt_succ_iff_lt_or_eq.mp hjk1 with hj | hj
              · exact hinv.mp h0 j hj
              · subst hj
                rintro ⟨he, hnz⟩
                exact hnc ⟨h0, he⟩
            · intro hall
              exact hinv.mpr (fun j hj => hall j (Nat.lt_succ_of_lt hj))
          have hres := ih (k + 1) (outWrites st (host.output1 k) s)
            (asked ++ [k]) acc' rfl rfl hinv' h
          rw [hres, List.filter_cons]
          simp [hskipk]
        · -- declined: the step would have aborted
          rw [heq] at hstep
          exact absurd hstep (by simp)

/-- If, inside the window `range' k m`, every output before `j` skips
confirmation, `j` does not skip, its script derives, and the user declines
its confirmation, the loop aborts with ActionCancelled. -/
theorem outputs_loop_declined (env : Env) (host : Host) (W : Option (List Nat))
    (F : MultisigFingerprint) :
    ∀ (m k : Nat) (st : SignState) (asked : List Nat) (j : Nat),
      st.wallet_path = W → st.multisig_fp = F →
      (st.change_out = 0 ↔ ∀ j', j' < k →
        ¬(output_is_change_wf W F (host.output1 j') = true
          ∧ (host.output1 j').amount ≠ 0)) →
      k ≤ j → j < k + m →
      (∀ i, k ≤ i → i < j → skipW W F host i = true) →
      skipW W F host j = false →
      (∀ i, k ≤ i → i ≤ j → ∃ s, output_derive_script env.coin (host.output1 i) = .ok s) →
      host.confirmOutput j = false →
      phase1_outputs_loop env host (List.range' k m) ⟨st, asked⟩
        = .error (.signing .ActionCancelled msgOutputCancelled) := by
  intro m
  induction m with
  | zero =>
    intro k st asked j hW hF hinv hkj hjm hpre hskip hder hconf
    exact absurd hjm (by omega)
  | succ m ih =>
    intro k st asked j hW hF hinv hkj hjm hpre hskip hder hconf
    have hr : List.range' k (m + 1) = k :: List.range' (k + 1) m := rfl
    rw [hr]
    simp only [phase1_outputs_loop]
    obtain ⟨s, hd⟩ := hder k (le_refl k) hkj
    subst hW; subst hF
    by_cases hkj' : k = j
    · subst hkj'
      have hnc : ¬(st.change_out = 0
          ∧ output_is_change_wf st.wallet_path st.multisig_fp (host.output1 k) = true) := by
        rintro ⟨h0, helig⟩
        have hsk : skipW st.wallet_path st.multisig_fp host k = true := by
          unfold skipW
          rw [Bool.and_eq_true]
          exact ⟨helig,
            (noPriorB_iff st.wallet_path st.multisig_fp host k).mpr (hinv.mp h0)⟩
        rw [hskip] at hsk
        exact absurd hsk (by simp)
      rcases phase1_confirm_output_split env host st asked k (host.output1 k) s hd with
        ⟨hc0, helig, heq⟩ | ⟨hnc2, hcf, heq⟩ | ⟨hnc2, hcf, heq⟩
      · exact absurd ⟨hc0, helig⟩ hnc
      · rw [hcf] at hconf
        exact absurd hconf (by simp)
      · rw [heq]
    · have hklt : k < j := lt_of_le_of_ne hkj hkj'
      have hsk : skipW st.wallet_path st.multisig_fp host k = true :=
        hpre k (le_refl k) hklt
      have hsk' := hsk
      rw [skipW, Bool.and_eq_true] at hsk'
      have helig := hsk'.1
      have hnp := (noPriorB_iff st.wallet_path st.multisig_fp host k).mp hsk'.2
      have hc0 : st.change_out = 0 := hinv.mpr hnp
      rcases phase1_confirm_output_split env host st asked k (host.output1 k) s hd with
        ⟨_, _, heq⟩ | ⟨hnc2, _, _⟩ | ⟨hnc2, _, _⟩
      · rw [heq]
        have hinv' : (outWrites { st with change_out := (host.output1 k).amount }
              (host.output1 k) s).change_out = 0 ↔
            ∀ j', j' < k + 1 →
              ¬(output_is_change_wf st.wallet_path st.multisig_fp (host.output1 j') = true
                ∧ (host.output1 j').amount ≠ 0) := by
          show (host.output1 k).amount = 0 ↔ _
          constructor
          · intro h0 j' hjk1
            rcases Nat.lt_succ_iff_lt_or_eq.mp hjk1 with hj | hj
            · exact hnp j' hj
            · subst hj
              rintro ⟨he, hnz⟩
              exact hnz h0
          · intro hall
            by_contra hnz
            exact hall k (Nat.lt_succ_self k) ⟨helig, hnz⟩
        exact ih (k + 1)
          (outWrites { st with change_out := (host.output1 k).amount } (host.output1 k) s)
          asked j rfl rfl hinv' (by omega) (by omega)
          (fun i hi hij => hpre i (by omega) hij) hskip
          (fun i hi hij => hder i (by omega) hij) hconf
      · exact absurd ⟨hc0, helig⟩ hnc2
      · exact absurd ⟨hc0, helig⟩ hnc2

/-- Claim C3 (amended): in a phase-1 run starting with no recorded change, an
output skips explicit user confirmation iff it satisfies the change predicate
and no earlier output both satisfies the change predicate and has a nonzero
amount (`skipW`); every other output triggers an explicit confirmation
request, and if the user declines it the run aborts with ActionCancelled. -/
theorem claim_C3_change_confirmation (env : Env) (host : Host) (n : Nat)
    (st0 : SignState) (h0 : st0.change_out = 0) :
    (∀ acc', phase1_outputs_loop env host (List.range n) ⟨st0, []⟩ = .ok acc' →
      acc'.asked = (List.range n).filter
        (fun i => !skipW st0.wallet_path st0.multisig_fp host i))
    ∧ (∀ j, j < n →
        (∀ i, i < j → skipW st0.wallet_path st0.multisig_fp host i = true) →
        skipW st0.wallet_path st0.multisig_fp host j = false →
        (∀ i, i ≤ j → ∃ s, output_derive_script env.coin (host.output1 i) = .ok s) →
        host.confirmOutput j = false →
        phase1_outputs_loop env host (List.range n) ⟨st0, []⟩
          = .error (.signing .ActionCancelled msgOutputCancelled)) := by
  have hinv0 : st0.change_out = 0 ↔ ∀ j, j < 0 →
      ¬(output_is_change_wf st0.wallet_path st0.multisig_fp (host.output1 j) = true
        ∧ (host.output1 j).amount ≠ 0) :=
    ⟨fun _ j hj => absurd hj (Nat.not_lt_zero j), fun _ => h0⟩
  constructor
  · intro acc' h
    rw [List.range_eq_range'] at h ⊢
    have := outputs_loop_asked env host st0.wallet_path st0.multisig_fp n 0 st0 []
      acc' rfl rfl hinv0 h
    simpa using this
  · intro j hj hpre hskip hder hconf
    rw [List.range_eq_range']
    exact outputs_loop_declined env host st0.wallet_path st0.multisig_fp n 0 st0 [] j
      rfl rfl hinv0 (Nat.zero_le j) (by omega)
      (fun i _ hij => hpre i hij) hskip (fun i _ hij => hder i hij) hconf

/-- A host declining every output confirmation, streaming the plain payment
output. -/
def cHost3b : Host := { cHost with confirmOutput := fun _ => false }

/-- Evaluation of the amended claim C3 at a concrete input: a single
non-change output whose confirmation is declined aborts the loop. -/
theorem claim_C3_change_confirmation_witness :
    phase1_outputs_loop cEnv cHost3b (List.range 1) ⟨cSt3, []⟩
      = .error (.signing .ActionCancelled msgOutputCancelled) :=
  (claim_C3_change_confirmation cEnv cHost3b 1 cSt3 rfl).2 0 (by decide)
    (fun i hi => absurd hi (Nat.not_lt_zero i)) (by decide)
    (fun i hi => ⟨Script.p2pkh [9], rfl⟩) rfl

end SignTx
